import Mathlib

/-!
# notify_rocketchat: a verification development

A shallow embedding of `main.go` (the Icinga to Rocket.Chat notification
command) together with the parts of the Go standard library it calls.

Conventions of the embedding:

* A Go `string` is a sequence of bytes. It is modelled as `Str = List Nat`;
  a byte is a natural number below 256 (larger entries are treated by every
  function below as invalid, non-ASCII bytes).
* `str "..."` is the UTF-8 byte sequence of a literal.
* Bit operations of the UTF-8 routines are written arithmetically:
  `b & 0x3F` is `b % 64`, `x << 6` is `x * 64`, and `|` of values with
  disjoint bits is `+`.
* Loops that advance by a computed width carry a fuel argument that is
  initialised with the length of the string; every step consumes at least one
  byte, so the fuel never runs out (`appendStringLoop_fuel`, `validLoop_fuel`).
* `fmt.Fprintf` and `fmt.Sprintf` are modelled for the verb `%s` with string
  operands, the only use the program makes of them; the format strings are
  those of main.go.
* The flag package is not modelled: a run starts from the parsed values of the
  flags (`Flags`).
* Everything the program obtains from the operating system or from library
  tables that are not reproduced here (clock, environment, host name,
  time-zone rendering, Unicode case tables, URL parser, HTTP client) is a
  field of `World`.
-/

namespace NotifyRocketchat

/-- A Go string: its bytes. -/
abbrev Str := List Nat

/-! ## unicode/utf8 -/

/-- The constant `utf8.RuneError` (U+FFFD). -/
def RuneError : Nat := 0xFFFD

/-- The constant `utf8.RuneSelf`: bytes below it are single-byte runes. -/
def RuneSelf : Nat := 0x80

/-- The constant `utf8.UTFMax`. -/
def UTFMax : Nat := 4

/-- The function `utf8.EncodeRune` / `utf8.AppendRune`: surrogates and values above
U+10FFFF are written as U+FFFD. -/
def EncodeRune (r : Nat) : Str :=
  if r ≤ 0x7F then [r]
  else if r ≤ 0x7FF then [0xC0 + r / 64, 0x80 + r % 64]
  else if r > 0x10FFFF ∨ (0xD800 ≤ r ∧ r ≤ 0xDFFF) then [0xEF, 0xBF, 0xBD]
  else if r ≤ 0xFFFF then [0xE0 + r / 4096, 0x80 + r / 64 % 64, 0x80 + r % 64]
  else [0xF0 + r / 262144, 0x80 + r / 4096 % 64, 0x80 + r / 64 % 64, 0x80 + r % 64]

/-- The UTF-8 bytes of a literal. -/
def str (s : String) : Str :=
  s.toList.flatMap (fun c => EncodeRune c.toNat)

/-- The table `first` of package utf8: information about the first byte of a
sequence. `0xF0` is ASCII, `0xF1` is invalid, otherwise the low three bits are
the size and the high four bits index `acceptRanges`. -/
def first (b : Nat) : Nat :=
  if b < 0x80 then 0xF0
  else if b < 0xC2 then 0xF1
  else if b < 0xE0 then 0x02
  else if b = 0xE0 then 0x13
  else if b < 0xED then 0x03
  else if b = 0xED then 0x23
  else if b < 0xF0 then 0x03
  else if b = 0xF0 then 0x34
  else if b < 0xF4 then 0x04
  else if b = 0xF4 then 0x44
  else 0xF1

/-- The table `acceptRanges` of package utf8: bounds (lo, hi) of the second byte. -/
def acceptRanges (i : Nat) : Nat × Nat :=
  if i = 0 then (0x80, 0xBF)
  else if i = 1 then (0xA0, 0xBF)
  else if i = 2 then (0x80, 0x9F)
  else if i = 3 then (0x90, 0xBF)
  else if i = 4 then (0x80, 0x8F)
  else (0, 0)

/-- The function `utf8.DecodeRuneInString`: the first rune of `s` and its width in
bytes; `(RuneError, 1)` on an invalid sequence, `(RuneError, 0)` on the empty
string. -/
def DecodeRuneInString (s : Str) : Nat × Nat :=
  match s with
  | [] => (RuneError, 0)
  | s0 :: _ =>
    let x := first s0
    if x ≥ 0xF0 then
      (if x = 0xF1 then RuneError else s0, 1)
    else
      let sz := x % 8
      let accept := acceptRanges (x / 16)
      if s.length < sz then (RuneError, 1)
      else
        let s1 := s.getD 1 0
        if s1 < accept.1 ∨ accept.2 < s1 then (RuneError, 1)
        else if sz ≤ 2 then (s0 % 32 * 64 + s1 % 64, 2)
        else
          let s2 := s.getD 2 0
          if s2 < 0x80 ∨ 0xBF < s2 then (RuneError, 1)
          else if sz ≤ 3 then (s0 % 16 * 4096 + s1 % 64 * 64 + s2 % 64, 3)
          else
            let s3 := s.getD 3 0
            if s3 < 0x80 ∨ 0xBF < s3 then (RuneError, 1)
            else (s0 % 8 * 262144 + s1 % 64 * 4096 + s2 % 64 * 64 + s3 % 64, 4)

/-- The function `utf8.RuneStart`: the byte is not a continuation byte. -/
def RuneStart (b : Nat) : Bool :=
  b / 64 % 4 != 2

/-- The backwards scan inside `utf8.DecodeLastRuneInString`:
`for start--; start >= lim; start-- { if RuneStart(s[start]) { break } }`,
entered after the initial `start--`. -/
def lastRuneScan (s : Str) (lim : Int) : Nat → Int → Int
  | 0, start => start
  | fuel + 1, start =>
    if start ≥ lim then
      if RuneStart (s.getD start.toNat 0) then start
      else lastRuneScan s lim fuel (start - 1)
    else start

/-- The function `utf8.DecodeLastRuneInString`: the last rune of `s` and its width. -/
def DecodeLastRuneInString (s : Str) : Nat × Nat :=
  let n := s.length
  if n = 0 then (RuneError, 0)
  else
    let r := s.getD (n - 1) 0
    if r < RuneSelf then (r, 1)
    else
      let lim : Int := if (n : Int) - UTFMax < 0 then 0 else (n : Int) - UTFMax
      let start := lastRuneScan s lim (UTFMax + 1) ((n : Int) - 2)
      let start := if start < 0 then 0 else start.toNat
      let (r, size) := DecodeRuneInString ((s.take n).drop start)
      if start + size ≠ n then (RuneError, 1) else (r, size)

/-! ## unicode -/

/-- The function `unicode.IsSpace`: the Latin-1 cases of the switch, then the
`White_Space` range table for the rest. -/
def IsSpace (r : Nat) : Bool :=
  if r ≤ 0xFF then
    r = 0x09 || r = 0x0A || r = 0x0B || r = 0x0C || r = 0x0D || r = 0x20 || r = 0x85 || r = 0xA0
  else
    r = 0x1680 || (0x2000 ≤ r && r ≤ 0x200A) || r = 0x2028 || r = 0x2029 || r = 0x202F
      || r = 0x205F || r = 0x3000

/-- The function `unicode.ToLower`; `lowerCase` is `unicode.To(unicode.LowerCase, ·)`, the
lookup in the Unicode case tables, used for non-ASCII runes only. -/
def unicodeToLower (lowerCase : Nat → Nat) (r : Nat) : Nat :=
  if r ≤ 0x7F then
    if 0x41 ≤ r ∧ r ≤ 0x5A then r + 0x20 else r
  else lowerCase r

/-! ## strings -/

/-- The table `asciiSpace` of package strings. -/
def asciiSpace (c : Nat) : Nat :=
  if c = 0x09 ∨ c = 0x0A ∨ c = 0x0B ∨ c = 0x0C ∨ c = 0x0D ∨ c = 0x20 then 1 else 0

/-- The function `strings.indexFunc` with `truth = false`, as used by `TrimLeftFunc`:
the suffix of `s` starting at the first rune that does not satisfy `f`
(`none` when there is no such rune, Go's index -1). -/
def indexFuncFalse (f : Nat → Bool) : Nat → Str → Option Str
  | 0, _ => none
  | _ + 1, [] => none
  | fuel + 1, b :: t =>
    let (r, size) := DecodeRuneInString (b :: t)
    if f r = false then some (b :: t)
    else indexFuncFalse f fuel ((b :: t).drop size)

/-- The function `strings.TrimLeftFunc`. -/
def TrimLeftFunc (s : Str) (f : Nat → Bool) : Str :=
  match indexFuncFalse f s.length s with
  | none => []
  | some t => t

/-- The function `strings.lastIndexFunc` with `truth = false`: the index at which
the last rune not satisfying `f` starts, `-1` when there is none. The second
argument is the loop variable `i`. -/
def lastIndexFuncFalse (f : Nat → Bool) (s : Str) : Nat → Nat → Int
  | 0, _ => -1
  | fuel + 1, i =>
    if i > 0 then
      let (r, size) := DecodeLastRuneInString (s.take i)
      let i := i - size
      if f r = false then (i : Int)
      else lastIndexFuncFalse f s fuel i
    else -1

/-- The function `strings.TrimRightFunc`. -/
def TrimRightFunc (s : Str) (f : Nat → Bool) : Str :=
  let i := lastIndexFuncFalse f s s.length s.length
  if i ≥ 0 ∧ s.getD i.toNat 0 ≥ RuneSelf then
    let (_, wid) := DecodeRuneInString (s.drop i.toNat)
    s.take (i.toNat + wid)
  else
    s.take (i + 1).toNat

/-- The function `strings.TrimFunc`. -/
def TrimFunc (s : Str) (f : Nat → Bool) : Str :=
  TrimRightFunc (TrimLeftFunc s f) f

/-- Second loop of `strings.TrimSpace`, on `u = s[start:]` with `stop` counted
from `start`: strip ASCII space from the end, falling back to `TrimRightFunc`
at a non-ASCII byte. -/
def trimSpaceStop (u : Str) : Nat → Str
  | 0 => []
  | stop + 1 =>
    let c := u.getD stop 0
    if c ≥ RuneSelf then TrimRightFunc (u.take (stop + 1)) IsSpace
    else if asciiSpace c = 0 then u.take (stop + 1)
    else trimSpaceStop u stop

/-- The function `strings.TrimSpace`: the first loop strips ASCII space from the
start, falling back to `TrimFunc` at a non-ASCII byte; then the second loop. -/
def TrimSpace : Str → Str
  | [] => []
  | c :: t =>
    if c ≥ RuneSelf then TrimFunc (c :: t) IsSpace
    else if asciiSpace c = 0 then trimSpaceStop (c :: t) (c :: t).length
    else TrimSpace t

/-- The function `strings.Map`: every rune of `s` (an invalid byte counts as U+FFFD) is
replaced by the encoding of its image. -/
def Map (mapping : Nat → Nat) : Nat → Str → Str
  | 0, _ => []
  | _ + 1, [] => []
  | fuel + 1, b :: t =>
    let (c, size) := DecodeRuneInString (b :: t)
    EncodeRune (mapping c) ++ Map mapping fuel ((b :: t).drop size)

/-- The function `strings.ToLower`: a byte-wise path for ASCII-only strings, `Map` with
`unicode.ToLower` otherwise. -/
def ToLower (lowerCase : Nat → Nat) (s : Str) : Str :=
  if s.all (fun c => c < RuneSelf) then
    s.map (fun c => if 0x41 ≤ c ∧ c ≤ 0x5A then c + 0x20 else c)
  else Map (unicodeToLower lowerCase) s.length s

/-! ## encoding/json -/

/-- The digit table `hex` of package json. -/
def hex (n : Nat) : Nat :=
  (str "0123456789abcdef").getD n 0

/-- The table `safeSet` of package json: the ASCII bytes that need no escape in a
JSON string, i.e. everything from space to DEL except the quote and the
backslash. -/
def safeSet (b : Nat) : Bool :=
  0x20 ≤ b && b ≤ 0x7F && b != 0x22 && b != 0x5C

/-- The table `htmlSafeSet` of package json: `safeSet` without `<`, `>` and `&`. -/
def htmlSafeSet (b : Nat) : Bool :=
  safeSet b && b != 0x3C && b != 0x3E && b != 0x26

/-- The escape that `appendString` writes for an ASCII byte that is not safe: the
`switch b` of its loop. -/
def appendEscape (b : Nat) : Str :=
  if b = 0x5C ∨ b = 0x22 then [0x5C, b]
  else if b = 0x08 then str "\\b"
  else if b = 0x0C then str "\\f"
  else if b = 0x0A then str "\\n"
  else if b = 0x0D then str "\\r"
  else if b = 0x09 then str "\\t"
  else str "\\u00" ++ [hex (b / 16), hex (b % 16)]

/-- The loop of `json.appendString` over `src[i:]`. Go copies the unescaped
stretches `src[start:i]` in one piece; here every byte or rune is emitted as
it is passed, which yields the same bytes. -/
def appendStringLoop (escapeHTML : Bool) : Nat → Str → Str
  | 0, _ => []
  | _ + 1, [] => []
  | fuel + 1, b :: t =>
    if b < RuneSelf then
      if htmlSafeSet b || (!escapeHTML && safeSet b) then
        b :: appendStringLoop escapeHTML fuel t
      else
        appendEscape b ++ appendStringLoop escapeHTML fuel t
    else
      let n := if (b :: t).length > UTFMax then UTFMax else (b :: t).length
      let (c, size) := DecodeRuneInString ((b :: t).take n)
      if c = RuneError ∧ size = 1 then
        str "\\ufffd" ++ appendStringLoop escapeHTML fuel t
      else if c = 0x2028 ∨ c = 0x2029 then
        str "\\u202" ++ [hex (c % 16)] ++ appendStringLoop escapeHTML fuel ((b :: t).drop size)
      else
        (b :: t).take size ++ appendStringLoop escapeHTML fuel ((b :: t).drop size)

/-- The function `json.appendString`: `src` as a quoted JSON string. -/
def appendString (src : Str) (escapeHTML : Bool) : Str :=
  [0x22] ++ appendStringLoop escapeHTML src.length src ++ [0x22]

/-- The call `je.Encode(map[string]interface{}{"text": text})` on an encoder with
`SetEscapeHTML(escapeHTML)`: the object with the single key `text`, followed
by the newline that `Encode` appends. -/
def Encode (escapeHTML : Bool) (text : Str) : Str :=
  str "\x7b" ++ appendString (str "text") escapeHTML ++ str ":" ++ appendString text escapeHTML
    ++ str "\x7d" ++ str "\n"

/-! ## main.go -/

/-- The parsed command line: the values of the eleven flags. -/
structure Flags where
  icingaTimet : Int
  hName : Str
  hDisplayName : Str
  hActionUrl : Str
  hState : Str
  hOutput : Str
  sName : Str
  sDisplayName : Str
  sActionUrl : Str
  sState : Str
  sOutput : Str

/-- A parsed `*url.URL`; the program only hands it on to the HTTP client. -/
structure URL where
  text : Str

/-- The `http.Request` literal built by `main`. -/
structure Request where
  Method : Str
  URL : URL
  Header : List (Str × List Str)
  Body : Str

/-- The part of an `http.Response` the program uses: the status code and the
bytes `response.Write` produces. -/
structure Response where
  StatusCode : Int
  wire : Str

/-- What the program obtains from its surroundings. -/
structure World where
  /-- The value of `time.Now().Unix()`. -/
  now : Int
  /-- The process environment; `none` for an unset variable. -/
  environ : Str → Option Str
  /-- The result of `os.Hostname()`: the name, or the text of the error. -/
  hostname : Except Str Str
  /-- The rendering `time.Unix(t, 0).String()` in the local time zone. -/
  timeString : Int → Str
  /-- The lookup `unicode.To(unicode.LowerCase, r)` in the Unicode case tables. -/
  lowerCase : Nat → Nat
  /-- The result of `url.Parse`: the URL, or the text of the error. -/
  urlParse : Str → Except Str URL
  /-- The result of `http.DefaultClient.Do`: the response, or the text of the error. -/
  httpDo : Request → Except Str Response

/-- The function `os.Getenv`: the empty string for an unset variable. -/
def Getenv (w : World) (key : Str) : Str :=
  match w.environ key with
  | some v => v
  | none => []

/-- What one run of the program leaves behind: the exit status, the bytes
written to standard error, the formatted text `buf.String()` when the run got
that far, and the request handed to the HTTP client, if any. -/
structure Outcome where
  exitCode : Nat
  stderr : Str
  message : Option Str
  request : Option Request

/-- The function `empty` of main.go. -/
def empty (s : Str) : Bool :=
  TrimSpace s == []

/-- The function `complain` of main.go: `msg` and a newline go to standard error (after
what was written before), the process exits with status 2. -/
def complain (stderr : Str) (msg : Str) : Outcome :=
  { exitCode := 2, stderr := stderr ++ msg ++ str "\n", message := none, request := none }

/-- The functions `fmt.Sprintf` and `fmt.Fprintf` for the formats of this program: the only
verb is `%s` and every operand is a string (or has a `String` method whose
result is passed here), so each `%s` is replaced by the next operand, byte
for byte; a `%s` without operand prints as `%!s(MISSING)`. -/
def Sprintf : Str → List Str → Str
  | [], _ => []
  | [c], _ => [c]
  | c :: d :: rest, a =>
    if c = 0x25 ∧ d = 0x73 then
      match a with
      | arg :: args => arg ++ Sprintf rest args
      | [] => str "%!s(MISSING)" ++ Sprintf rest []
    else c :: Sprintf (d :: rest) a

/-- The function `mustFprintf` of main.go on a `strings.Builder`, whose `Write` never
fails: the formatted text is appended to what the builder holds. -/
def mustFprintf (w : Str) (format : Str) (a : List Str) : Str :=
  w ++ Sprintf format a

/-- The function `linkOrItalic` of main.go. -/
def linkOrItalic (text url : Str) : Str :=
  if empty url then
    Sprintf (str "_%s_") [text]
  else
    Sprintf (str "[%s](%s)") [text, url]

/-- The variables `main` has set when it leaves the mode selection (lines 44-66). -/
structure Mode where
  reportService : Bool
  state : Str
  output : Str
  sDisplayName : Str

/-- Lines 44-66 of `main`: choose service or host mode and check the required
flags. `Except.error msg` stands for the call `complain(msg)`. -/
def selectMode (f : Flags) : Except Str Mode :=
  if !empty f.sName || !empty f.sDisplayName || !empty f.sActionUrl || !empty f.sState
      || !empty f.sOutput then
    if empty f.hName || empty f.sName || empty f.sState then
      .error (str "-service.* is given, missing some of: -host.name, -service.name, -service.state")
    else
      .ok { reportService := true, state := f.sState, output := f.sOutput,
            sDisplayName := if empty f.sDisplayName then f.sName else f.sDisplayName }
  else if !empty f.hName || !empty f.hDisplayName || !empty f.hActionUrl || !empty f.hState
      || !empty f.hOutput then
    if empty f.hName || empty f.hState then
      .error (str "-host.* is given, missing some of: -host.name, -host.state")
    else
      .ok { reportService := false, state := f.hState, output := f.hOutput,
            sDisplayName := f.sDisplayName }
  else
    .error (str "Missing either -host.name and -host.state or -host.name, -service.name and -service.state")

/-- Lines 87-98 of `main`: the icon and the punctuation mark for a state. -/
def iconAndMark (state : Str) : Str × Str :=
  if state = str "UP" ∨ state = str "OK" then (str "white_check_mark", str ".")
  else if state = str "WARNING" then (str "warning", str "!")
  else if state = str "DOWN" ∨ state = str "CRITICAL" then (str "exclamation", str "!")
  else (str "question", str "!")

/-- Lines 87-117 of `main`: the text written to `buf`. The time is passed to
`Fprintf` as a `time.Time`, which `%s` prints through its `String` method. -/
def formatMessage (w : World) (f : Flags) (icingaTimet : Int) (hostname : Str) (m : Mode)
    (hDisplayName : Str) : Str :=
  let icon := (iconAndMark m.state).1
  let pMark := (iconAndMark m.state).2
  let buf : Str := []
  let buf :=
    if m.reportService then
      let buf := mustFprintf buf (str ":%s: *Service monitoring on %s* :%s:") [icon, hostname, icon]
      let buf := mustFprintf buf (str "\n\n%s on %s is *%s*%s")
        [linkOrItalic m.sDisplayName f.sActionUrl, linkOrItalic hDisplayName f.hActionUrl,
          ToLower w.lowerCase m.state, pMark]
      mustFprintf buf (str "\n\nWhen: %s\nHost: %s\nService: %s")
        [w.timeString icingaTimet, f.hName, f.sName]
    else
      let buf := mustFprintf buf (str ":%s: *Host monitoring on %s* :%s:") [icon, hostname, icon]
      let buf := mustFprintf buf (str "\n\n%s is *%s*%s")
        [linkOrItalic hDisplayName f.hActionUrl, ToLower w.lowerCase m.state, pMark]
      mustFprintf buf (str "\n\nWhen: %s\nHost: %s") [w.timeString icingaTimet, f.hName]
  mustFprintf buf (str "\nInfo:\n\n```\n%s\n```") [m.output]

/-- Lines 77-85 of `main`: the local host name, the value of `exitSuccess` and
what was written to standard error. A failed lookup is reported, sets
`exitSuccess` to 1 and puts `(unknown)` in place of the name. -/
def lookupHostname (w : World) : Str × Nat × Str :=
  match w.hostname with
  | .error errHn => (str "(unknown)", 1, errHn ++ str "\n")
  | .ok hostname => (hostname, 0, [])

/-- Lines 119-133 of `main`: the request literal, with the JSON encoding of the text
as its body. -/
def webhookRequest (webhookUrl : URL) (text : Str) : Request :=
  { Method := str "POST", URL := webhookUrl,
    Header := [(str "Content-Type", [str "application/json"])], Body := Encode false text }

/-- Lines 119-145 of `main`: encode the body, send the request, map the result
to the exit status. -/
def deliver (w : World) (webhookUrl : URL) (exitSuccess : Nat) (stderr : Str) (text : Str) :
    Outcome :=
  let request := webhookRequest webhookUrl text
  match w.httpDo request with
  | .error errRq =>
    { exitCode := 1, stderr := stderr ++ errRq ++ str "\n", message := some text,
      request := some request }
  | .ok response =>
    if response.StatusCode > 299 then
      { exitCode := 1, stderr := stderr ++ response.wire, message := some text,
        request := some request }
    else
      { exitCode := exitSuccess, stderr := stderr, message := some text,
        request := some request }

/-- The function `main` of main.go, from the parsed flags on. -/
def main (w : World) (f : Flags) : Outcome :=
  let icingaTimet := if f.icingaTimet = 0 then w.now else f.icingaTimet
  let webhook := Getenv w (str "ROCKETCHAT_WEBHOOK_URL")
  if empty webhook then
    complain [] (str "$ROCKETCHAT_WEBHOOK_URL missing")
  else
    match selectMode f with
    | .error msg => complain [] msg
    | .ok m =>
      let hDisplayName := if empty f.hDisplayName then f.hName else f.hDisplayName
      match w.urlParse webhook with
      | .error errUP => complain [] errUP
      | .ok webhookUrl =>
        let hostname := (lookupHostname w).1
        let exitSuccess := (lookupHostname w).2.1
        let stderr := (lookupHostname w).2.2
        let text := formatMessage w f icingaTimet hostname m hDisplayName
        deliver w webhookUrl exitSuccess stderr text

/-! ## Reading side

The program only writes JSON. To state what a receiver gets when it parses the
request body, the definitions below read a JSON text (RFC 8259) that is an
object whose members are strings; they are not part of main.go. -/

/-- Validity of a byte string as UTF-8, the loop of `utf8.ValidString`: every
non-ASCII position starts a sequence that `DecodeRuneInString` accepts. -/
def validLoop : Nat → Str → Bool
  | 0, s => s.isEmpty
  | _ + 1, [] => true
  | fuel + 1, b :: t =>
    if b < RuneSelf then validLoop fuel t
    else
      if (DecodeRuneInString (b :: t)).2 = 1 then false
      else validLoop fuel ((b :: t).drop (DecodeRuneInString (b :: t)).2)

/-- The function `utf8.ValidString`: the bytes are the UTF-8 encoding of a sequence of
Unicode scalar values. -/
def ValidString (s : Str) : Bool :=
  validLoop s.length s

/-- JSON insignificant whitespace: space, tab, line feed, carriage return. -/
def isJSONSpace (b : Nat) : Bool :=
  b = 0x20 || b = 0x09 || b = 0x0A || b = 0x0D

/-- Drop leading JSON whitespace. -/
def skipSpace : Str → Str
  | [] => []
  | b :: t => if isJSONSpace b then skipSpace t else b :: t

/-- The value of a hexadecimal digit. -/
def hexValue (c : Nat) : Option Nat :=
  if 0x30 ≤ c ∧ c ≤ 0x39 then some (c - 0x30)
  else if 0x61 ≤ c ∧ c ≤ 0x66 then some (c - 0x61 + 10)
  else if 0x41 ≤ c ∧ c ≤ 0x46 then some (c - 0x41 + 10)
  else none

/-- Four hexadecimal digits: their value and the rest of the input. -/
def readHex4 : Str → Option (Nat × Str)
  | a :: b :: c :: d :: t =>
    match hexValue a, hexValue b, hexValue c, hexValue d with
    | some a, some b, some c, some d => some (((a * 16 + b) * 16 + c) * 16 + d, t)
    | _, _, _, _ => none
  | _ => none

/-- The input after a `\u`: the UTF-8 bytes of the escaped character and the
rest of the input. A high surrogate followed by an escaped low surrogate
gives the character of the pair; an unpaired surrogate gives U+FFFD. -/
def readUnicodeEscape (s : Str) : Option (Str × Str) :=
  match readHex4 s with
  | none => none
  | some (u, t) =>
    if 0xD800 ≤ u ∧ u ≤ 0xDBFF then
      match t with
      | b1 :: b2 :: t2 =>
        if b1 = 0x5C ∧ b2 = 0x75 then
          match readHex4 t2 with
          | some (v, t3) =>
            if 0xDC00 ≤ v ∧ v ≤ 0xDFFF then
              some (EncodeRune (0x10000 + (u - 0xD800) * 0x400 + (v - 0xDC00)), t3)
            else some (EncodeRune RuneError, t)
          | none => none
        else some (EncodeRune RuneError, t)
      | _ => some (EncodeRune RuneError, t)
    else some (EncodeRune u, t)

/-- The character a two-character escape stands for. -/
def simpleEscape (e : Nat) : Option Nat :=
  if e = 0x22 then some 0x22
  else if e = 0x5C then some 0x5C
  else if e = 0x2F then some 0x2F
  else if e = 0x62 then some 0x08
  else if e = 0x66 then some 0x0C
  else if e = 0x6E then some 0x0A
  else if e = 0x72 then some 0x0D
  else if e = 0x74 then some 0x09
  else none

/-- The input after the opening quote of a JSON string: the bytes of the string
value and the input after the closing quote. -/
def readStringTail : Nat → Str → Option (Str × Str)
  | 0, _ => none
  | _ + 1, [] => none
  | fuel + 1, b :: t =>
    if b = 0x22 then some ([], t)
    else if b = 0x5C then
      match t with
      | [] => none
      | e :: t2 =>
        if e = 0x75 then
          match readUnicodeEscape t2 with
          | none => none
          | some (bytes, t3) =>
            match readStringTail fuel t3 with
            | none => none
            | some (v, rest) => some (bytes ++ v, rest)
        else
          match simpleEscape e with
          | none => none
          | some c =>
            match readStringTail fuel t2 with
            | none => none
            | some (v, rest) => some (c :: v, rest)
    else if b < 0x20 then none
    else
      match readStringTail fuel t with
      | none => none
      | some (v, rest) => some (b :: v, rest)

/-- A JSON string at the head of the input: its value and the rest. -/
def readString : Str → Option (Str × Str)
  | [] => none
  | b :: t => if b = 0x22 then readStringTail t.length t else none

/-- The members of an object from the first key on, up to and including the
closing brace: the key/value pairs in order and the rest of the input. -/
def readMembers : Nat → Str → Option (List (Str × Str) × Str)
  | 0, _ => none
  | fuel + 1, s =>
    match readString s with
    | none => none
    | some (k, t) =>
      match skipSpace t with
      | [] => none
      | c :: t2 =>
        if c = 0x3A then
          match readString (skipSpace t2) with
          | none => none
          | some (v, t3) =>
            match skipSpace t3 with
            | [] => none
            | d :: t4 =>
              if d = 0x7D then some ([(k, v)], t4)
              else if d = 0x2C then
                match readMembers fuel (skipSpace t4) with
                | none => none
                | some (ms, rest) => some ((k, v) :: ms, rest)
              else none
        else none

/-- Parse a JSON text that is an object with string members: the key/value
pairs in order, `none` when the text is anything else. -/
def parseObject (s : Str) : Option (List (Str × Str)) :=
  match skipSpace s with
  | [] => none
  | b :: t =>
    if b = 0x7B then
      match skipSpace t with
      | [] => none
      | c :: t2 =>
        if c = 0x7D then
          if skipSpace t2 = [] then some [] else none
        else
          match readMembers s.length (c :: t2) with
          | none => none
          | some (ms, rest) => if skipSpace rest = [] then some ms else none
    else none

/-- Whether `sub` occurs in `s` as a contiguous piece. -/
def occursIn (sub s : Str) : Bool :=
  s.tails.any (fun t => sub.isPrefixOf t)

/-! ## Fixtures for the scenarios of the specification -/

/-- A run with no flags given. -/
def noFlags : Flags :=
  { icingaTimet := 0, hName := [], hDisplayName := [], hActionUrl := [], hState := [],
    hOutput := [], sName := [], sDisplayName := [], sActionUrl := [], sState := [],
    sOutput := [] }

/-- Scenario A: `-host.name=h1 -host.state=UP`. -/
def scenarioA : Flags :=
  { noFlags with hName := str "h1", hState := str "UP" }

/-- Scenario B: `-host.name=h1 -service.name=s1 -service.state=CRITICAL`. -/
def scenarioB : Flags :=
  { noFlags with hName := str "h1", sName := str "s1", sState := str "CRITICAL" }

/-- Host-mode flags whose host name has a second line: `-host.state=UP` and
`-host.name` set to `h1`, a newline and `Service: s1`. -/
def hostNameWithServiceLine : Flags :=
  { noFlags with hName := str "h1\nService: s1", hState := str "UP" }

/-- A world in which everything works: the webhook is set to
`https://example.com/wh`, the machine is called `mon1`, the server answers
with the given status. -/
def okWorld (status : Int) : World :=
  { now := 1700000000,
    environ := fun k =>
      if k = str "ROCKETCHAT_WEBHOOK_URL" then some (str "https://example.com/wh") else none,
    hostname := .ok (str "mon1"),
    timeString := fun _ => str "2023-11-14 22:13:20 +0000 UTC",
    lowerCase := fun r => r,
    urlParse := fun s => .ok { text := s },
    httpDo := fun _ => .ok { StatusCode := status, wire := str "HTTP/1.1" } }

set_option maxRecDepth 100000

/-! ## The structure of a run -/

/-- Whatever the HTTP client answers, the outcome records the text that was formatted. -/
theorem deliver_message (w : World) (u : URL) (e : Nat) (err text : Str) :
    (deliver w u e err text).message = some text := by
  simp only [deliver]
  split
  · rfl
  · split <;> rfl

/-- Whatever the HTTP client answers, the outcome records the request that was built. -/
theorem deliver_request (w : World) (u : URL) (e : Nat) (err text : Str) :
    (deliver w u e err text).request = some (webhookRequest u text) := by
  simp only [deliver]
  split
  · rfl
  · split <;> rfl

/-- A transport error ends the run with status 1. -/
theorem deliver_exitCode_error (w : World) (u : URL) (e : Nat) (err text errRq : Str)
    (h : w.httpDo (webhookRequest u text) = .error errRq) :
    (deliver w u e err text).exitCode = 1 := by
  simp only [deliver, h]

/-- With a response, the status is 1 above 299 and `exitSuccess` otherwise. -/
theorem deliver_exitCode_ok (w : World) (u : URL) (e : Nat) (err text : Str) (r : Response)
    (h : w.httpDo (webhookRequest u text) = .ok r) :
    (deliver w u e err text).exitCode = if r.StatusCode > 299 then 1 else e := by
  simp only [deliver, h]
  split <;> rfl

/-- The value of `exitSuccess` is 0 or 1. -/
theorem lookupHostname_exit_le (w : World) : (lookupHostname w).2.1 ≤ 1 := by
  unfold lookupHostname
  split <;> simp

/-- Delivery never ends with a status above 1. -/
theorem deliver_exitCode_le (w : World) (u : URL) (e : Nat) (err text : Str) (he : e ≤ 1) :
    (deliver w u e err text).exitCode ≤ 1 := by
  cases h : w.httpDo (webhookRequest u text) with
  | error x => rw [deliver_exitCode_error w u e err text x h]
  | ok r =>
    rw [deliver_exitCode_ok w u e err text r h]
    split
    · exact le_refl 1
    · exact he

/-- The host name used in the text. -/
theorem lookupHostname_name (w : World) :
    (lookupHostname w).1 = (match w.hostname with | .ok h => h | .error _ => str "(unknown)") := by
  cases h : w.hostname <;> simp [lookupHostname, h]

/-- A run whose webhook is set, whose flags are accepted and whose URL parses is the delivery of the formatted text. -/
theorem main_of_valid (w : World) (f : Flags) (m : Mode) (u : URL)
    (hw : empty (Getenv w (str "ROCKETCHAT_WEBHOOK_URL")) = false)
    (hm : selectMode f = .ok m)
    (hu : w.urlParse (Getenv w (str "ROCKETCHAT_WEBHOOK_URL")) = .ok u) :
    main w f = deliver w u (lookupHostname w).2.1 (lookupHostname w).2.2
      (formatMessage w f (if f.icingaTimet = 0 then w.now else f.icingaTimet)
        (lookupHostname w).1 m (if empty f.hDisplayName then f.hName else f.hDisplayName)) := by
  unfold main
  simp only [hw, hm, hu, Bool.false_eq_true, if_false]

/-- Status 2 is exactly the three calls of `complain`. -/
theorem exit_two_iff (w : World) (f : Flags) :
    (main w f).exitCode = 2 ↔
      (empty (Getenv w (str "ROCKETCHAT_WEBHOOK_URL")) = true
        ∨ (∃ msg, selectMode f = .error msg)
        ∨ (∃ e, w.urlParse (Getenv w (str "ROCKETCHAT_WEBHOOK_URL")) = .error e)) := by
  cases hw : empty (Getenv w (str "ROCKETCHAT_WEBHOOK_URL")) with
  | true => simp [main, hw, complain]
  | false =>
    cases hm : selectMode f with
    | error msg => simp [main, hw, hm, complain]
    | ok m =>
      cases hu : w.urlParse (Getenv w (str "ROCKETCHAT_WEBHOOK_URL")) with
      | error e => simp [main, hw, hm, hu, complain]
      | ok u =>
        rw [main_of_valid w f m u hw hm hu]
        have := deliver_exitCode_le w u (lookupHostname w).2.1 (lookupHostname w).2.2
          (formatMessage w f (if f.icingaTimet = 0 then w.now else f.icingaTimet)
            (lookupHostname w).1 m (if empty f.hDisplayName then f.hName else f.hDisplayName))
          (lookupHostname_exit_le w)
        simp
        omega

/-- A run that does not end with status 2 passed every check. -/
theorem valid_run (w : World) (f : Flags) (hv : (main w f).exitCode ≠ 2) :
    empty (Getenv w (str "ROCKETCHAT_WEBHOOK_URL")) = false
      ∧ ∃ m u, selectMode f = .ok m
        ∧ w.urlParse (Getenv w (str "ROCKETCHAT_WEBHOOK_URL")) = .ok u := by
  rw [Ne, exit_two_iff] at hv
  push_neg at hv
  obtain ⟨h1, h2, h3⟩ := hv
  refine ⟨by simpa using h1, ?_⟩
  cases hm : selectMode f with
  | error msg => exact absurd hm (h2 msg)
  | ok m =>
    cases hu : w.urlParse (Getenv w (str "ROCKETCHAT_WEBHOOK_URL")) with
    | error e => exact absurd hu (h3 e)
    | ok u => exact ⟨m, u, rfl, rfl⟩

/-- A run that passes the three checks does not end with status 2. -/
theorem exit_ne_two_of_valid (w : World) (f : Flags) (m : Mode) (u : URL)
    (hw : empty (Getenv w (str "ROCKETCHAT_WEBHOOK_URL")) = false)
    (hm : selectMode f = .ok m)
    (hu : w.urlParse (Getenv w (str "ROCKETCHAT_WEBHOOK_URL")) = .ok u) :
    (main w f).exitCode ≠ 2 := by
  rw [Ne, exit_two_iff, hw, hm, hu]
  simp

/-- The body of the request is the encoding of the formatted text. -/
theorem main_body_of_valid (w : World) (f : Flags) (hv : (main w f).exitCode ≠ 2) :
    ∃ text, (main w f).message = some text
      ∧ (main w f).request.map Request.Body = some (Encode false text) := by
  obtain ⟨hw, m, u, hm, hu⟩ := valid_run w f hv
  rw [main_of_valid w f m u hw hm hu, deliver_message, deliver_request]
  exact ⟨_, rfl, rfl⟩

/-! ## Mode selection -/

/-- Mode selection when a service field is given. -/
theorem selectMode_service (f : Flags)
    (hs : empty f.sName = false ∨ empty f.sDisplayName = false ∨ empty f.sActionUrl = false
      ∨ empty f.sState = false ∨ empty f.sOutput = false) :
    selectMode f =
      if empty f.hName = true ∨ empty f.sName = true ∨ empty f.sState = true then
        .error (str "-service.* is given, missing some of: -host.name, -service.name, -service.state")
      else
        .ok { reportService := true, state := f.sState, output := f.sOutput,
              sDisplayName := if empty f.sDisplayName then f.sName else f.sDisplayName } := by
  have hc : (!empty f.sName || !empty f.sDisplayName || !empty f.sActionUrl || !empty f.sState
      || !empty f.sOutput) = true := by
    rcases hs with h | h | h | h | h <;> simp [h]
  unfold selectMode
  rw [if_pos hc]
  simp only [Bool.or_eq_true, or_assoc]

/-- Mode selection when no service field but a host field is given. -/
theorem selectMode_host (f : Flags)
    (hs : empty f.sName = true ∧ empty f.sDisplayName = true ∧ empty f.sActionUrl = true
      ∧ empty f.sState = true ∧ empty f.sOutput = true)
    (hh : empty f.hName = false ∨ empty f.hDisplayName = false ∨ empty f.hActionUrl = false
      ∨ empty f.hState = false ∨ empty f.hOutput = false) :
    selectMode f =
      if empty f.hName = true ∨ empty f.hState = true then
        .error (str "-host.* is given, missing some of: -host.name, -host.state")
      else
        .ok { reportService := false, state := f.hState, output := f.hOutput,
              sDisplayName := f.sDisplayName } := by
  have hc : ¬ (!empty f.sName || !empty f.sDisplayName || !empty f.sActionUrl || !empty f.sState
      || !empty f.sOutput) = true := by
    simp [hs.1, hs.2.1, hs.2.2.1, hs.2.2.2.1, hs.2.2.2.2]
  have hd : (!empty f.hName || !empty f.hDisplayName || !empty f.hActionUrl || !empty f.hState
      || !empty f.hOutput) = true := by
    rcases hh with h | h | h | h | h <;> simp [h]
  unfold selectMode
  rw [if_neg hc, if_pos hd]
  simp only [Bool.or_eq_true, or_assoc]

/-- Mode selection when nothing is given. -/
theorem selectMode_none (f : Flags)
    (hs : empty f.sName = true ∧ empty f.sDisplayName = true ∧ empty f.sActionUrl = true
      ∧ empty f.sState = true ∧ empty f.sOutput = true)
    (hh : empty f.hName = true ∧ empty f.hDisplayName = true ∧ empty f.hActionUrl = true
      ∧ empty f.hState = true ∧ empty f.hOutput = true) :
    selectMode f = .error (str "Missing either -host.name and -host.state or -host.name, -service.name and -service.state") := by
  have hc : ¬ (!empty f.sName || !empty f.sDisplayName || !empty f.sActionUrl || !empty f.sState
      || !empty f.sOutput) = true := by
    simp [hs.1, hs.2.1, hs.2.2.1, hs.2.2.2.1, hs.2.2.2.2]
  have hd : ¬ (!empty f.hName || !empty f.hDisplayName || !empty f.hActionUrl || !empty f.hState
      || !empty f.hOutput) = true := by
    simp [hh.1, hh.2.1, hh.2.2.1, hh.2.2.2.1, hh.2.2.2.2]
  unfold selectMode
  rw [if_neg hc, if_neg hd]

/-- Either some service field is given or all are blank. -/
theorem service_given_or_not (f : Flags) :
    (empty f.sName = false ∨ empty f.sDisplayName = false ∨ empty f.sActionUrl = false
      ∨ empty f.sState = false ∨ empty f.sOutput = false)
    ∨ (empty f.sName = true ∧ empty f.sDisplayName = true ∧ empty f.sActionUrl = true
      ∧ empty f.sState = true ∧ empty f.sOutput = true) := by
  cases empty f.sName <;> cases empty f.sDisplayName <;> cases empty f.sActionUrl <;>
    cases empty f.sState <;> cases empty f.sOutput <;> simp

/-- Either some host field is given or all are blank. -/
theorem host_given_or_not (f : Flags) :
    (empty f.hName = false ∨ empty f.hDisplayName = false ∨ empty f.hActionUrl = false
      ∨ empty f.hState = false ∨ empty f.hOutput = false)
    ∨ (empty f.hName = true ∧ empty f.hDisplayName = true ∧ empty f.hActionUrl = true
      ∧ empty f.hState = true ∧ empty f.hOutput = true) := by
  cases empty f.hName <;> cases empty f.hDisplayName <;> cases empty f.hActionUrl <;>
    cases empty f.hState <;> cases empty f.hOutput <;> simp

/-- The flags are rejected exactly in the three cases of the validation rules. -/
theorem selectMode_error_iff (f : Flags) :
    (∃ msg, selectMode f = .error msg) ↔
      ((empty f.sName = false ∨ empty f.sDisplayName = false ∨ empty f.sActionUrl = false
          ∨ empty f.sState = false ∨ empty f.sOutput = false)
        ∧ (empty f.hName = true ∨ empty f.sName = true ∨ empty f.sState = true))
      ∨ ((empty f.sName = true ∧ empty f.sDisplayName = true ∧ empty f.sActionUrl = true
          ∧ empty f.sState = true ∧ empty f.sOutput = true)
        ∧ (empty f.hName = false ∨ empty f.hDisplayName = false ∨ empty f.hActionUrl = false
          ∨ empty f.hState = false ∨ empty f.hOutput = false)
        ∧ (empty f.hName = true ∨ empty f.hState = true))
      ∨ ((empty f.sName = true ∧ empty f.sDisplayName = true ∧ empty f.sActionUrl = true
          ∧ empty f.sState = true ∧ empty f.sOutput = true)
        ∧ (empty f.hName = true ∧ empty f.hDisplayName = true ∧ empty f.hActionUrl = true
          ∧ empty f.hState = true ∧ empty f.hOutput = true)) := by
  rcases service_given_or_not f with hs | hs
  · rw [selectMode_service f hs]
    have hns : ¬ (empty f.sName = true ∧ empty f.sDisplayName = true ∧ empty f.sActionUrl = true
          ∧ empty f.sState = true ∧ empty f.sOutput = true) := by
      rcases hs with h | h | h | h | h <;> simp [h]
    by_cases hr : empty f.hName = true ∨ empty f.sName = true ∨ empty f.sState = true
    · rw [if_pos hr]
      exact ⟨fun _ => Or.inl ⟨hs, hr⟩, fun _ => ⟨_, rfl⟩⟩
    · rw [if_neg hr]
      constructor
      · rintro ⟨msg, h⟩
        cases h
      · rintro (⟨_, h⟩ | ⟨h, _⟩ | ⟨h, _⟩)
        · exact absurd h hr
        · exact absurd h hns
        · exact absurd h hns
  · have hns : ¬ (empty f.sName = false ∨ empty f.sDisplayName = false ∨ empty f.sActionUrl = false
          ∨ empty f.sState = false ∨ empty f.sOutput = false) := by
      simp [hs.1, hs.2.1, hs.2.2.1, hs.2.2.2.1, hs.2.2.2.2]
    rcases host_given_or_not f with hh | hh
    · rw [selectMode_host f hs hh]
      have hnh : ¬ (empty f.hName = true ∧ empty f.hDisplayName = true ∧ empty f.hActionUrl = true
          ∧ empty f.hState = true ∧ empty f.hOutput = true) := by
        rcases hh with h | h | h | h | h <;> simp [h]
      by_cases hr : empty f.hName = true ∨ empty f.hState = true
      · rw [if_pos hr]
        exact ⟨fun _ => Or.inr (Or.inl ⟨hs, hh, hr⟩), fun _ => ⟨_, rfl⟩⟩
      · rw [if_neg hr]
        constructor
        · rintro ⟨msg, h⟩
          cases h
        · rintro (⟨h, _⟩ | ⟨_, _, h⟩ | ⟨_, h⟩)
          · exact absurd h hns
          · exact absurd h hr
          · exact absurd h hnh
    · rw [selectMode_none f hs hh]
      exact ⟨fun _ => Or.inr (Or.inr ⟨hs, hh⟩), fun _ => ⟨_, rfl⟩⟩

/-- The variables set by an accepted service-mode command line. -/
theorem mode_of_service (f : Flags) (m : Mode)
    (hs : empty f.sName = false ∨ empty f.sDisplayName = false ∨ empty f.sActionUrl = false
      ∨ empty f.sState = false ∨ empty f.sOutput = false)
    (hm : selectMode f = .ok m) :
    m = { reportService := true, state := f.sState, output := f.sOutput,
          sDisplayName := if empty f.sDisplayName then f.sName else f.sDisplayName }
      ∧ empty f.hName = false ∧ empty f.sName = false ∧ empty f.sState = false := by
  rw [selectMode_service f hs] at hm
  by_cases hr : empty f.hName = true ∨ empty f.sName = true ∨ empty f.sState = true
  · rw [if_pos hr] at hm
    cases hm
  · rw [if_neg hr] at hm
    simp only [Except.ok.injEq] at hm
    refine ⟨hm.symm, ?_⟩
    push_neg at hr
    simpa using hr

/-- The variables set by an accepted host-mode command line. -/
theorem mode_of_host (f : Flags) (m : Mode)
    (hs : empty f.sName = true ∧ empty f.sDisplayName = true ∧ empty f.sActionUrl = true
      ∧ empty f.sState = true ∧ empty f.sOutput = true)
    (hm : selectMode f = .ok m) :
    m = { reportService := false, state := f.hState, output := f.hOutput,
          sDisplayName := f.sDisplayName }
      ∧ empty f.hName = false ∧ empty f.hState = false := by
  rcases host_given_or_not f with hh | hh
  · rw [selectMode_host f hs hh] at hm
    by_cases hr : empty f.hName = true ∨ empty f.hState = true
    · rw [if_pos hr] at hm
      cases hm
    · rw [if_neg hr] at hm
      simp only [Except.ok.injEq] at hm
      refine ⟨hm.symm, ?_⟩
      push_neg at hr
      simpa using hr
  · rw [selectMode_none f hs hh] at hm
    cases hm

/-- Filling in the host display name does not change the mode. -/
theorem selectMode_hDisplayName (f : Flags) (m : Mode) (hm : selectMode f = .ok m) :
    selectMode { f with hDisplayName := f.hName } = .ok m := by
  rcases service_given_or_not f with hs | hs
  · rw [selectMode_service f hs] at hm
    rw [selectMode_service { f with hDisplayName := f.hName } hs]
    exact hm
  · obtain ⟨rfl, h1, h2⟩ := mode_of_host f m hs hm
    rw [selectMode_host { f with hDisplayName := f.hName } hs (Or.inl h1)]
    simp [h1, h2]

/-- Changing the host display name does not change the mode. -/
theorem selectMode_set_hDisplayName (f : Flags) (m : Mode) (d : Str)
    (hm : selectMode f = .ok m) :
    selectMode { f with hDisplayName := d } = .ok m := by
  rcases service_given_or_not f with hs | hs
  · rw [selectMode_service f hs] at hm
    rw [selectMode_service { f with hDisplayName := d } hs]
    exact hm
  · obtain ⟨rfl, h1, h2⟩ := mode_of_host f m hs hm
    rw [selectMode_host { f with hDisplayName := d } hs (Or.inl h1)]
    simp [h1, h2]

/-! ## The formatted text -/

/-- The text of a valid run in service mode. -/
theorem service_text (w : World) (f : Flags)
    (hv : (main w f).exitCode ≠ 2)
    (hs : empty f.sName = false ∨ empty f.sDisplayName = false ∨ empty f.sActionUrl = false
      ∨ empty f.sState = false ∨ empty f.sOutput = false) :
    (main w f).message = some (
      str ":" ++ (iconAndMark f.sState).1 ++ str ": *Service monitoring on "
        ++ (match w.hostname with | .ok h => h | .error _ => str "(unknown)")
        ++ str "* :" ++ (iconAndMark f.sState).1 ++ str ":"
        ++ str "\n\n"
        ++ linkOrItalic (if empty f.sDisplayName then f.sName else f.sDisplayName) f.sActionUrl
        ++ str " on "
        ++ linkOrItalic (if empty f.hDisplayName then f.hName else f.hDisplayName) f.hActionUrl
        ++ str " is *" ++ ToLower w.lowerCase f.sState ++ str "*" ++ (iconAndMark f.sState).2
        ++ str "\n\nWhen: " ++ w.timeString (if f.icingaTimet = 0 then w.now else f.icingaTimet)
        ++ str "\nHost: " ++ f.hName ++ str "\nService: " ++ f.sName
        ++ str "\nInfo:\n\n```\n" ++ f.sOutput ++ str "\n```") := by
  obtain ⟨hw, m, u, hm, hu⟩ := valid_run w f hv
  obtain ⟨rfl, -⟩ := mode_of_service f m hs hm
  rw [main_of_valid w f _ u hw hm hu, deliver_message, lookupHostname_name]
  simp [formatMessage, mustFprintf, Sprintf, str, EncodeRune]

/-- The text of a valid run in host mode. -/
theorem host_text (w : World) (f : Flags)
    (hv : (main w f).exitCode ≠ 2)
    (hs : empty f.sName = true ∧ empty f.sDisplayName = true ∧ empty f.sActionUrl = true
      ∧ empty f.sState = true ∧ empty f.sOutput = true) :
    (main w f).message = some (
      str ":" ++ (iconAndMark f.hState).1 ++ str ": *Host monitoring on "
        ++ (match w.hostname with | .ok h => h | .error _ => str "(unknown)")
        ++ str "* :" ++ (iconAndMark f.hState).1 ++ str ":"
        ++ str "\n\n"
        ++ linkOrItalic (if empty f.hDisplayName then f.hName else f.hDisplayName) f.hActionUrl
        ++ str " is *" ++ ToLower w.lowerCase f.hState ++ str "*" ++ (iconAndMark f.hState).2
        ++ str "\n\nWhen: " ++ w.timeString (if f.icingaTimet = 0 then w.now else f.icingaTimet)
        ++ str "\nHost: " ++ f.hName
        ++ str "\nInfo:\n\n```\n" ++ f.hOutput ++ str "\n```") := by
  obtain ⟨hw, m, u, hm, hu⟩ := valid_run w f hv
  obtain ⟨rfl, -⟩ := mode_of_host f m hs hm
  rw [main_of_valid w f _ u hw hm hu, deliver_message, lookupHostname_name]
  simp [formatMessage, mustFprintf, Sprintf, str, EncodeRune]

/-- A blank host display name behaves like the host name. -/
theorem main_hDisplayName (w : World) (f : Flags) (hv : (main w f).exitCode ≠ 2)
    (hd : empty f.hDisplayName = true) :
    main w { f with hDisplayName := f.hName } = main w f := by
  obtain ⟨hw, m, u, hm, hu⟩ := valid_run w f hv
  have hn : empty f.hName = false := by
    rcases service_given_or_not f with hs | hs
    · exact (mode_of_service f m hs hm).2.1
    · exact (mode_of_host f m hs hm).2.1
  rw [main_of_valid w f m u hw hm hu,
    main_of_valid w _ m u hw (selectMode_hDisplayName f m hm) hu]
  simp [formatMessage, hd, hn]

/-- In service mode a blank service display name behaves like the service name. -/
theorem main_sDisplayName (w : World) (f : Flags) (hv : (main w f).exitCode ≠ 2)
    (hs : empty f.sName = false ∨ empty f.sDisplayName = false ∨ empty f.sActionUrl = false
      ∨ empty f.sState = false ∨ empty f.sOutput = false)
    (hd : empty f.sDisplayName = true) :
    main w { f with sDisplayName := f.sName } = main w f := by
  obtain ⟨hw, m, u, hm, hu⟩ := valid_run w f hv
  obtain ⟨rfl, h1, h2, h3⟩ := mode_of_service f m hs hm
  have hm2 : selectMode { f with sDisplayName := f.sName } = .ok
      { reportService := true, state := f.sState, output := f.sOutput,
        sDisplayName := f.sName } := by
    rw [selectMode_service { f with sDisplayName := f.sName } (Or.inl h2)]
    simp [h1, h2, h3]
  rw [main_of_valid w f _ u hw hm hu, main_of_valid w _ _ u hw hm2 hu]
  simp [formatMessage, hd]

/-- In service mode the run does not depend on the host state and output. -/
theorem main_service_ignores_host_state (w : World) (f : Flags) (hState hOutput : Str)
    (hv : (main w f).exitCode ≠ 2)
    (hs : empty f.sName = false ∨ empty f.sDisplayName = false ∨ empty f.sActionUrl = false
      ∨ empty f.sState = false ∨ empty f.sOutput = false) :
    main w { f with hState := hState, hOutput := hOutput } = main w f := by
  obtain ⟨hw, m, u, hm, hu⟩ := valid_run w f hv
  have hm2 : selectMode { f with hState := hState, hOutput := hOutput } = .ok m := by
    rw [selectMode_service f hs] at hm
    rw [selectMode_service { f with hState := hState, hOutput := hOutput } hs]
    exact hm
  rw [main_of_valid w f m u hw hm hu, main_of_valid w _ m u hw hm2 hu]
  obtain ⟨rfl, -⟩ := mode_of_service f m hs hm
  simp [formatMessage]

/-- In host mode the run does not depend on the (blank) service fields. -/
theorem main_host_ignores_service_fields (w : World) (f : Flags)
    (sName sDisplayName sActionUrl sState sOutput : Str)
    (hv : (main w f).exitCode ≠ 2)
    (hs : empty f.sName = true ∧ empty f.sDisplayName = true ∧ empty f.sActionUrl = true
      ∧ empty f.sState = true ∧ empty f.sOutput = true)
    (hs2 : empty sName = true ∧ empty sDisplayName = true ∧ empty sActionUrl = true
      ∧ empty sState = true ∧ empty sOutput = true) :
    (main w { f with sName := sName, sDisplayName := sDisplayName, sActionUrl := sActionUrl, sState := sState, sOutput := sOutput }).message = (main w f).message
    ∧ (main w { f with sName := sName, sDisplayName := sDisplayName, sActionUrl := sActionUrl, sState := sState, sOutput := sOutput }).request = (main w f).request
    ∧ (main w { f with sName := sName, sDisplayName := sDisplayName, sActionUrl := sActionUrl, sState := sState, sOutput := sOutput }).exitCode = (main w f).exitCode := by
  obtain ⟨hw, m, u, hm, hu⟩ := valid_run w f hv
  obtain ⟨rfl, h1, h2⟩ := mode_of_host f m hs hm
  have hm2 : selectMode { f with sName := sName, sDisplayName := sDisplayName, sActionUrl := sActionUrl, sState := sState, sOutput := sOutput } = .ok
      { reportService := false, state := f.hState, output := f.hOutput,
        sDisplayName := sDisplayName } := by
    rw [selectMode_host { f with sName := sName, sDisplayName := sDisplayName, sActionUrl := sActionUrl, sState := sState, sOutput := sOutput } hs2 (Or.inl h1)]
    simp [h1, h2]
  rw [main_of_valid w f _ u hw hm hu, main_of_valid w _ _ u hw hm2 hu]
  have ht : formatMessage w { f with sName := sName, sDisplayName := sDisplayName, sActionUrl := sActionUrl, sState := sState, sOutput := sOutput }
        (if f.icingaTimet = 0 then w.now else f.icingaTimet) (lookupHostname w).1
        { reportService := false, state := f.hState, output := f.hOutput,
          sDisplayName := sDisplayName }
        (if empty f.hDisplayName then f.hName else f.hDisplayName)
      = formatMessage w f (if f.icingaTimet = 0 then w.now else f.icingaTimet)
        (lookupHostname w).1
        { reportService := false, state := f.hState, output := f.hOutput,
          sDisplayName := f.sDisplayName }
        (if empty f.hDisplayName then f.hName else f.hDisplayName) := by
    simp [formatMessage]
  simp only [ht, and_self]

/-- A host display name that is not blank is rendered as it is, in a context
that does not depend on it. -/
theorem host_display_name_verbatim (w : World) (f : Flags) (hv : (main w f).exitCode ≠ 2) :
    ∃ before after, ∀ d, empty d = false →
      (main w { f with hDisplayName := d }).message
        = some (before ++ linkOrItalic d f.hActionUrl ++ after) := by
  obtain ⟨hw, m, u, hm, hu⟩ := valid_run w f hv
  have hv2 : ∀ d, (main w { f with hDisplayName := d }).exitCode ≠ 2 := fun d =>
    exit_ne_two_of_valid w _ m u hw (selectMode_set_hDisplayName f m d hm) hu
  rcases service_given_or_not f with hs | hs
  · refine ⟨str ":" ++ (iconAndMark f.sState).1 ++ str ": *Service monitoring on "
        ++ (match w.hostname with | .ok h => h | .error _ => str "(unknown)")
        ++ str "* :" ++ (iconAndMark f.sState).1 ++ str ":" ++ str "\n\n"
        ++ linkOrItalic (if empty f.sDisplayName then f.sName else f.sDisplayName) f.sActionUrl
        ++ str " on ",
        str " is *" ++ ToLower w.lowerCase f.sState ++ str "*" ++ (iconAndMark f.sState).2
        ++ str "\n\nWhen: " ++ w.timeString (if f.icingaTimet = 0 then w.now else f.icingaTimet)
        ++ str "\nHost: " ++ f.hName ++ str "\nService: " ++ f.sName
        ++ str "\nInfo:\n\n```\n" ++ f.sOutput ++ str "\n```", ?_⟩
    intro d hd
    rw [service_text w { f with hDisplayName := d } (hv2 d) hs]
    simp only [hd, Bool.false_eq_true, if_false, List.append_assoc]
  · refine ⟨str ":" ++ (iconAndMark f.hState).1 ++ str ": *Host monitoring on "
        ++ (match w.hostname with | .ok h => h | .error _ => str "(unknown)")
        ++ str "* :" ++ (iconAndMark f.hState).1 ++ str ":" ++ str "\n\n",
        str " is *" ++ ToLower w.lowerCase f.hState ++ str "*" ++ (iconAndMark f.hState).2
        ++ str "\n\nWhen: " ++ w.timeString (if f.icingaTimet = 0 then w.now else f.icingaTimet)
        ++ str "\nHost: " ++ f.hName
        ++ str "\nInfo:\n\n```\n" ++ f.hOutput ++ str "\n```", ?_⟩
    intro d hd
    rw [host_text w { f with hDisplayName := d } (hv2 d) hs]
    simp only [hd, Bool.false_eq_true, if_false, List.append_assoc]

/-- In service mode a service display name that is not blank is rendered as it
is, in a context that does not depend on it. -/
theorem service_display_name_verbatim (w : World) (f : Flags) (hv : (main w f).exitCode ≠ 2)
    (hs : empty f.sName = false ∨ empty f.sDisplayName = false ∨ empty f.sActionUrl = false
      ∨ empty f.sState = false ∨ empty f.sOutput = false) :
    ∃ before after, ∀ d, empty d = false →
      (main w { f with sDisplayName := d }).message
        = some (before ++ linkOrItalic d f.sActionUrl ++ after) := by
  obtain ⟨hw, m, u, hm, hu⟩ := valid_run w f hv
  obtain ⟨rfl, h1, h2, h3⟩ := mode_of_service f m hs hm
  have hm2 : ∀ d, selectMode { f with sDisplayName := d } = .ok
      { reportService := true, state := f.sState, output := f.sOutput,
        sDisplayName := if empty d then f.sName else d } := by
    intro d
    rw [selectMode_service { f with sDisplayName := d } (Or.inl h2)]
    simp [h1, h2, h3]
  have hv2 : ∀ d, (main w { f with sDisplayName := d }).exitCode ≠ 2 := fun d =>
    exit_ne_two_of_valid w _ _ u hw (hm2 d) hu
  refine ⟨str ":" ++ (iconAndMark f.sState).1 ++ str ": *Service monitoring on "
        ++ (match w.hostname with | .ok h => h | .error _ => str "(unknown)")
        ++ str "* :" ++ (iconAndMark f.sState).1 ++ str ":" ++ str "\n\n",
        str " on "
        ++ linkOrItalic (if empty f.hDisplayName then f.hName else f.hDisplayName) f.hActionUrl
        ++ str " is *" ++ ToLower w.lowerCase f.sState ++ str "*" ++ (iconAndMark f.sState).2
        ++ str "\n\nWhen: " ++ w.timeString (if f.icingaTimet = 0 then w.now else f.icingaTimet)
        ++ str "\nHost: " ++ f.hName ++ str "\nService: " ++ f.sName
        ++ str "\nInfo:\n\n```\n" ++ f.sOutput ++ str "\n```", ?_⟩
  intro d hd
  rw [service_text w { f with sDisplayName := d } (hv2 d) (Or.inl h2)]
  simp only [hd, Bool.false_eq_true, if_false, List.append_assoc]

/-! ## Occurrences of a piece of text -/

/-- Searching from the first byte or later. -/
theorem occursIn_cons (sub : Str) (a : Nat) (s : Str) :
    occursIn sub (a :: s) = (sub.isPrefixOf (a :: s) || occursIn sub s) := by
  simp [occursIn, List.tails]

/-- Searching the empty string. -/
theorem occursIn_nil (sub : Str) : occursIn sub [] = sub.isPrefixOf [] := by
  simp [occursIn]

/-- A byte that is not in `sub` ends every match that reaches it. -/
theorem isPrefixOf_append_barrier (c : Nat) :
    ∀ (sub : Str), c ∉ sub → ∀ (x y : Str),
      sub.isPrefixOf (x ++ c :: y) = sub.isPrefixOf x := by
  intro sub
  induction sub with
  | nil => intro _ x y; simp
  | cons s ss ih =>
    intro hc x y
    have hs : s ≠ c := fun h => hc (by simp [h])
    have hss : c ∉ ss := fun h => hc (List.mem_cons_of_mem _ h)
    rcases x with _ | ⟨a, x⟩
    · simp [List.isPrefixOf, hs]
    · have := ih hss x y
      rw [List.cons_append, List.isPrefixOf, List.isPrefixOf, this]

/-- A byte that is not in `sub` separates the places where `sub` can occur. -/
theorem occursIn_append_barrier (c : Nat) (sub : Str) (hc : c ∉ sub) (x y : Str) :
    occursIn sub (x ++ c :: y) = (occursIn sub x || occursIn sub y) := by
  induction x with
  | nil =>
    rw [List.nil_append, occursIn_cons, occursIn_nil]
    have := isPrefixOf_append_barrier c sub hc [] y
    simp only [List.nil_append] at this
    rw [this]
  | cons a x ih =>
    rw [List.cons_append, occursIn_cons, occursIn_cons, ih,
      ← List.cons_append, isPrefixOf_append_barrier c sub hc (a :: x) y, Bool.or_assoc]

/-- Where `Service:` can occur in a text of the host template: only inside one
of the inserted texts, as long as the icon and the mark bring none. -/
theorem occursIn_host_template (I P h d url low time hName out : Str)
    (h0 : occursIn (str "Service:") (str ":" ++ I ++ str ": *Host monitoring on") = false)
    (h1 : occursIn (str "Service:") (str " :" ++ I ++ str ":\n\n") = false)
    (h3 : occursIn (str "Service:") (P ++ str "\n\nWhen:") = false) :
    occursIn (str "Service:")
      (str ":" ++ I ++ str ": *Host monitoring on " ++ h ++ str "* :" ++ I ++ str ":"
        ++ str "\n\n" ++ linkOrItalic d url ++ str " is *" ++ low ++ str "*" ++ P
        ++ str "\n\nWhen: " ++ time ++ str "\nHost: " ++ hName
        ++ str "\nInfo:\n\n```\n" ++ out ++ str "\n```") = true
    ↔ (occursIn (str "Service:") h = true ∨ occursIn (str "Service:") d = true
      ∨ (empty url = false ∧ occursIn (str "Service:") url = true)
      ∨ occursIn (str "Service:") low = true ∨ occursIn (str "Service:") time = true
      ∨ occursIn (str "Service:") hName = true ∨ occursIn (str "Service:") out = true) := by
  have b20 := occursIn_append_barrier 0x20 (str "Service:") (by decide)
  have b2A := occursIn_append_barrier 0x2A (str "Service:") (by decide)
  have b5F := occursIn_append_barrier 0x5F (str "Service:") (by decide)
  have b5B := occursIn_append_barrier 0x5B (str "Service:") (by decide)
  have b5D := occursIn_append_barrier 0x5D (str "Service:") (by decide)
  have b28 := occursIn_append_barrier 0x28 (str "Service:") (by decide)
  have b29 := occursIn_append_barrier 0x29 (str "Service:") (by decide)
  have b0A := occursIn_append_barrier 0x0A (str "Service:") (by decide)
  have e0 : occursIn (str "Service:") [] = false := by decide
  have e2 : occursIn (str "Service:") (str " is ") = false := by decide
  have e4 : occursIn (str "Service:") (str "Host:") = false := by decide
  have e5 : occursIn (str "Service:") (str "Info:\n\n```") = false := by decide
  have e6 : occursIn (str "Service:") (str "```") = false := by decide
  cases hu : empty url with
  | true =>
    have hform : str ":" ++ I ++ str ": *Host monitoring on " ++ h ++ str "* :" ++ I ++ str ":"
        ++ str "\n\n" ++ linkOrItalic d url ++ str " is *" ++ low ++ str "*" ++ P
        ++ str "\n\nWhen: " ++ time ++ str "\nHost: " ++ hName
        ++ str "\nInfo:\n\n```\n" ++ out ++ str "\n```"
        = (str ":" ++ I ++ str ": *Host monitoring on") ++ 0x20 :: (h ++ 0x2A :: (
          (str " :" ++ I ++ str ":\n\n") ++ 0x5F :: (d ++ 0x5F :: (str " is " ++ 0x2A :: (
          low ++ 0x2A :: ((P ++ str "\n\nWhen:") ++ 0x20 :: (time ++ 0x0A :: (
          str "Host:" ++ 0x20 :: (hName ++ 0x0A :: (str "Info:\n\n```" ++ 0x0A :: (
          out ++ 0x0A :: (str "```")))))))))))) := by
      simp [linkOrItalic, hu, Sprintf, str, EncodeRune]
    rw [hform]
    simp only [b20, b2A, b5F, b0A, h0, h1, h3, e2, e4, e5, e6, Bool.false_or, Bool.or_false,
      Bool.or_eq_true, Bool.true_eq_false, false_and, false_or]
  | false =>
    have hform : str ":" ++ I ++ str ": *Host monitoring on " ++ h ++ str "* :" ++ I ++ str ":"
        ++ str "\n\n" ++ linkOrItalic d url ++ str " is *" ++ low ++ str "*" ++ P
        ++ str "\n\nWhen: " ++ time ++ str "\nHost: " ++ hName
        ++ str "\nInfo:\n\n```\n" ++ out ++ str "\n```"
        = (str ":" ++ I ++ str ": *Host monitoring on") ++ 0x20 :: (h ++ 0x2A :: (
          (str " :" ++ I ++ str ":\n\n") ++ 0x5B :: (d ++ 0x5D :: (([] : Str) ++ 0x28 :: (
          url ++ 0x29 :: (str " is " ++ 0x2A :: (low ++ 0x2A :: (
          (P ++ str "\n\nWhen:") ++ 0x20 :: (time ++ 0x0A :: (str "Host:" ++ 0x20 :: (
          hName ++ 0x0A :: (str "Info:\n\n```" ++ 0x0A :: (out ++ 0x0A :: (
          str "```")))))))))))))) := by
      simp [linkOrItalic, hu, Sprintf, str, EncodeRune]
    rw [hform]
    simp only [b20, b2A, b5B, b5D, b28, b29, b0A, h0, h1, h3, e0, e2, e4, e5, e6,
      Bool.false_or, Bool.or_false, Bool.or_eq_true, true_and]

/-- Neither an icon nor a punctuation mark of the state table brings a `Service:`
into the fixed parts of the host template. -/
theorem iconAndMark_no_service (s : Str) :
    occursIn (str "Service:")
        (str ":" ++ (iconAndMark s).1 ++ str ": *Host monitoring on") = false
    ∧ occursIn (str "Service:") (str " :" ++ (iconAndMark s).1 ++ str ":\n\n") = false
    ∧ occursIn (str "Service:") ((iconAndMark s).2 ++ str "\n\nWhen:") = false := by
  unfold iconAndMark
  split_ifs
  · exact ⟨by decide, by decide, by decide⟩
  · exact ⟨by decide, by decide, by decide⟩
  · exact ⟨by decide, by decide, by decide⟩
  · exact ⟨by decide, by decide, by decide⟩

/-! ## UTF-8 -/

/-- The entries of the table `first` for non-ASCII bytes. -/
theorem first_cases (b : Nat) (hb : 0x80 ≤ b) :
    first b = 0xF1 ∨ (first b = 0x02 ∧ 0xC2 ≤ b ∧ b ≤ 0xDF) ∨ (first b = 0x13 ∧ b = 0xE0)
    ∨ (first b = 0x03 ∧ 0xE1 ≤ b ∧ b ≤ 0xEF) ∨ (first b = 0x23 ∧ b = 0xED)
    ∨ (first b = 0x34 ∧ b = 0xF0) ∨ (first b = 0x04 ∧ 0xF1 ≤ b ∧ b ≤ 0xF3)
    ∨ (first b = 0x44 ∧ b = 0xF4) := by
  by_cases h1 : b < 0xC2
  · left; simp only [first]; rw [if_neg (by omega), if_pos h1]
  by_cases h2 : b < 0xE0
  · right; left
    refine ⟨?_, by omega, by omega⟩
    simp only [first]; rw [if_neg (by omega), if_neg h1, if_pos h2]
  by_cases h3 : b = 0xE0
  · right; right; left
    subst h3; exact ⟨by decide, rfl⟩
  by_cases h4 : b < 0xED
  · right; right; right; left
    refine ⟨?_, by omega, by omega⟩
    simp only [first]; rw [if_neg (by omega), if_neg h1, if_neg h2, if_neg h3, if_pos h4]
  by_cases h5 : b = 0xED
  · right; right; right; right; left
    subst h5; exact ⟨by decide, rfl⟩
  by_cases h6 : b < 0xF0
  · right; right; right; left
    refine ⟨?_, by omega, by omega⟩
    simp only [first]
    rw [if_neg (by omega), if_neg h1, if_neg h2, if_neg h3, if_neg h4, if_neg h5, if_pos h6]
  by_cases h7 : b = 0xF0
  · right; right; right; right; right; left
    subst h7; exact ⟨by decide, rfl⟩
  by_cases h8 : b < 0xF4
  · right; right; right; right; right; right; left
    refine ⟨?_, by omega, by omega⟩
    simp only [first]
    rw [if_neg (by omega), if_neg h1, if_neg h2, if_neg h3, if_neg h4, if_neg h5, if_neg h6,
      if_neg h7, if_pos h8]
  by_cases h9 : b = 0xF4
  · right; right; right; right; right; right; right
    subst h9; exact ⟨by decide, rfl⟩
  left
  simp only [first]
  rw [if_neg (by omega), if_neg h1, if_neg h2, if_neg h3, if_neg h4, if_neg h5, if_neg h6,
      if_neg h7, if_neg h8, if_neg h9]

/-- Lead bytes of two-byte sequences. -/
theorem first_two (b : Nat) (h1 : 0xC2 ≤ b) (h2 : b ≤ 0xDF) : first b = 0x02 := by
  have n1 : ¬ b < 0x80 := by omega
  have n2 : ¬ b < 0xC2 := by omega
  have p3 : b < 0xE0 := by omega
  unfold first
  rw [if_neg n1, if_neg n2, if_pos p3]

/-- Lead bytes of three-byte sequences other than E0 and ED. -/
theorem first_three (b : Nat) (h1 : 0xE1 ≤ b) (h2 : b ≤ 0xEF) (h3 : b ≠ 0xED) :
    first b = 0x03 := by
  have n1 : ¬ b < 0x80 := by omega
  have n2 : ¬ b < 0xC2 := by omega
  have n3 : ¬ b < 0xE0 := by omega
  have n4 : ¬ b = 0xE0 := by omega
  unfold first
  rw [if_neg n1, if_neg n2, if_neg n3, if_neg n4]
  by_cases h : b < 0xED
  · rw [if_pos h]
  · have p7 : b < 0xF0 := by omega
    rw [if_neg h, if_neg h3, if_pos p7]

/-- Lead bytes of four-byte sequences other than F0 and F4. -/
theorem first_four (b : Nat) (h1 : 0xF1 ≤ b) (h2 : b ≤ 0xF3) : first b = 0x04 := by
  have n1 : ¬ b < 0x80 := by omega
  have n2 : ¬ b < 0xC2 := by omega
  have n3 : ¬ b < 0xE0 := by omega
  have n4 : ¬ b = 0xE0 := by omega
  have n5 : ¬ b < 0xED := by omega
  have n6 : ¬ b = 0xED := by omega
  have n7 : ¬ b < 0xF0 := by omega
  have n8 : ¬ b = 0xF0 := by omega
  have p9 : b < 0xF4 := by omega
  unfold first
  rw [if_neg n1, if_neg n2, if_neg n3, if_neg n4, if_neg n5, if_neg n6, if_neg n7, if_neg n8,
    if_pos p9]

/-- What `DecodeRuneInString` returns at a non-ASCII byte: either width 1 and
`RuneError`, or a well-formed sequence of 2, 3 or 4 bytes. -/
theorem decode_cases (b : Nat) (t : Str) (hb : ¬ b < RuneSelf) :
    ((DecodeRuneInString (b :: t)).2 = 1 ∧ (DecodeRuneInString (b :: t)).1 = RuneError)
    ∨ (∃ s1 r, t = s1 :: r ∧ 0x80 ≤ s1 ∧ s1 ≤ 0xBF
        ∧ DecodeRuneInString (b :: t) = (b % 32 * 64 + s1 % 64, 2))
    ∨ (∃ s1 s2 r, t = s1 :: s2 :: r ∧ 0xE0 ≤ b ∧ b ≤ 0xEF ∧ 0x80 ≤ s1 ∧ s1 ≤ 0xBF
        ∧ 0x80 ≤ s2 ∧ s2 ≤ 0xBF
        ∧ DecodeRuneInString (b :: t) = (b % 16 * 4096 + s1 % 64 * 64 + s2 % 64, 3))
    ∨ (∃ s1 s2 s3 r, t = s1 :: s2 :: s3 :: r ∧ 0x80 ≤ s1 ∧ 0x80 ≤ s2 ∧ 0x80 ≤ s3
        ∧ 0x10000 ≤ (DecodeRuneInString (b :: t)).1
        ∧ (DecodeRuneInString (b :: t)).2 = 4) := by
  simp only [RuneSelf, not_lt] at hb
  have three : ∀ x lo hi, first b = x → x % 8 = 3 → x < 0xF0 → acceptRanges (x / 16) = (lo, hi) →
      0x80 ≤ lo → hi ≤ 0xBF → 0xE0 ≤ b → b ≤ 0xEF →
      ((DecodeRuneInString (b :: t)).2 = 1 ∧ (DecodeRuneInString (b :: t)).1 = RuneError)
      ∨ (∃ s1 s2 r, t = s1 :: s2 :: r ∧ 0xE0 ≤ b ∧ b ≤ 0xEF ∧ 0x80 ≤ s1 ∧ s1 ≤ 0xBF
        ∧ 0x80 ≤ s2 ∧ s2 ≤ 0xBF
        ∧ DecodeRuneInString (b :: t) = (b % 16 * 4096 + s1 % 64 * 64 + s2 % 64, 3)) := by
    intro x lo hi hx hsz hlt hacc hlo hhi hb1 hb2
    have hx' : ¬ x ≥ 0xF0 := by omega
    rcases t with _ | ⟨s1, _ | ⟨s2, r⟩⟩
    · left
      simp [DecodeRuneInString, hx, hx', hsz, hacc]
    · left
      simp [DecodeRuneInString, hx, hx', hsz, hacc]
    · by_cases hs : s1 < lo ∨ hi < s1
      · left
        simp [DecodeRuneInString, hx, hx', hsz, hacc, hs]
      · by_cases hs2 : s2 < 0x80 ∨ 0xBF < s2
        · left
          simp [DecodeRuneInString, hx, hx', hsz, hacc, hs, hs2]
        · right
          refine ⟨s1, s2, r, rfl, hb1, hb2, by omega, by omega, by omega, by omega, ?_⟩
          simp [DecodeRuneInString, hx, hx', hsz, hacc, hs, hs2]
  have four : ∀ x lo hi, first b = x → x % 8 = 4 → x < 0xF0 → acceptRanges (x / 16) = (lo, hi) →
      0x80 ≤ lo → hi ≤ 0xBF → (b % 8 = 0 → 0x90 ≤ lo) →
      ((DecodeRuneInString (b :: t)).2 = 1 ∧ (DecodeRuneInString (b :: t)).1 = RuneError)
      ∨ (∃ s1 s2 s3 r, t = s1 :: s2 :: s3 :: r ∧ 0x80 ≤ s1 ∧ 0x80 ≤ s2 ∧ 0x80 ≤ s3
        ∧ 0x10000 ≤ (DecodeRuneInString (b :: t)).1
        ∧ (DecodeRuneInString (b :: t)).2 = 4) := by
    intro x lo hi hx hsz hlt hacc hlo hhi hlo2
    have hx' : ¬ x ≥ 0xF0 := by omega
    rcases t with _ | ⟨s1, _ | ⟨s2, _ | ⟨s3, r⟩⟩⟩
    · left
      simp [DecodeRuneInString, hx, hx', hsz, hacc]
    · left
      simp [DecodeRuneInString, hx, hx', hsz, hacc]
    · left
      simp [DecodeRuneInString, hx, hx', hsz, hacc]
    · by_cases hs : s1 < lo ∨ hi < s1
      · left
        simp [DecodeRuneInString, hx, hx', hsz, hacc, hs]
      · by_cases hs2 : s2 < 0x80 ∨ 0xBF < s2
        · left
          simp [DecodeRuneInString, hx, hx', hsz, hacc, hs, hs2]
        · by_cases hs3 : s3 < 0x80 ∨ 0xBF < s3
          · left
            simp [DecodeRuneInString, hx, hx', hsz, hacc, hs, hs2, hs3]
          · right
            have hl : ¬ (r.length + 1 + 1 + 1 + 1 < 4) := by omega
            refine ⟨s1, s2, s3, r, rfl, by omega, by omega, by omega, ?_⟩
            simp [DecodeRuneInString, hx, hx', hsz, hacc, hs, hs2, hs3, hl]
            omega
  rcases first_cases b hb with h | ⟨h, h1, h2⟩ | ⟨h, h1⟩ | ⟨h, h1, h2⟩ | ⟨h, h1⟩ | ⟨h, h1⟩
    | ⟨h, h1, h2⟩ | ⟨h, h1⟩
  · left
    simp [DecodeRuneInString, h]
  · -- two bytes
    rcases t with _ | ⟨s1, r⟩
    · left
      simp [DecodeRuneInString, h, acceptRanges]
    · by_cases hs : s1 < 0x80 ∨ 0xBF < s1
      · left
        simp [DecodeRuneInString, h, acceptRanges, hs]
      · right; left
        refine ⟨s1, r, rfl, by omega, by omega, ?_⟩
        simp [DecodeRuneInString, h, acceptRanges, hs]
  · rcases three 0x13 0xA0 0xBF h (by decide) (by decide) (by decide) (by decide) (by decide)
      (by omega) (by omega) with h | h
    · exact Or.inl h
    · exact Or.inr (Or.inr (Or.inl h))
  · rcases three 0x03 0x80 0xBF h (by decide) (by decide) (by decide) (by decide) (by decide)
      (by omega) (by omega) with h | h
    · exact Or.inl h
    · exact Or.inr (Or.inr (Or.inl h))
  · rcases three 0x23 0x80 0x9F h (by decide) (by decide) (by decide) (by decide) (by decide)
      (by omega) (by omega) with h | h
    · exact Or.inl h
    · exact Or.inr (Or.inr (Or.inl h))
  · rcases four 0x34 0x90 0xBF h (by decide) (by decide) (by decide) (by decide)
      (by decide) (fun _ => by decide) with h | h
    · exact Or.inl h
    · exact Or.inr (Or.inr (Or.inr h))
  · rcases four 0x04 0x80 0xBF h (by decide) (by decide) (by decide) (by decide)
      (by decide) (fun h => by omega) with h | h
    · exact Or.inl h
    · exact Or.inr (Or.inr (Or.inr h))
  · rcases four 0x44 0x80 0x8F h (by decide) (by decide) (by decide) (by decide)
      (by decide) (fun h => by omega) with h | h
    · exact Or.inl h
    · exact Or.inr (Or.inr (Or.inr h))

/-- Decoding a non-empty string consumes at least one byte and at most four. -/
theorem decode_size_pos (b : Nat) (t : Str) :
    1 ≤ (DecodeRuneInString (b :: t)).2 ∧ (DecodeRuneInString (b :: t)).2 ≤ 4 := by
  by_cases hb : b < RuneSelf
  · have hf : first b = 0xF0 := by
      simp only [RuneSelf] at hb
      simp [first, hb]
    simp [DecodeRuneInString, hf]
  · rcases decode_cases b t hb with h | ⟨s1, r, rfl, -, -, hd⟩
      | ⟨s1, s2, r, rfl, -, -, -, -, -, -, hd⟩ | ⟨s1, s2, s3, r, rfl, -, -, -, -, hd⟩
    · rw [h.1]; exact ⟨le_refl 1, by decide⟩
    · rw [hd]; exact ⟨by simp, by simp⟩
    · rw [hd]; exact ⟨by simp, by simp⟩
    · rw [hd]; exact ⟨by decide, by decide⟩

/-- What is left after a decoded rune is shorter than the string. -/
theorem length_drop_decode (b : Nat) (t : Str) :
    ((b :: t).drop (DecodeRuneInString (b :: t)).2).length ≤ t.length := by
  have h := (decode_size_pos b t).1
  simp only [List.length_drop, List.length_cons]
  omega

/-- Decoding looks at no more than the first four bytes. -/
theorem decode_take (b : Nat) (t : Str) :
    DecodeRuneInString ((b :: t).take (if (b :: t).length > UTFMax then UTFMax
      else (b :: t).length)) = DecodeRuneInString (b :: t) := by
  rcases t with _ | ⟨s1, _ | ⟨s2, _ | ⟨s3, _ | ⟨s4, r⟩⟩⟩⟩
  · simp [UTFMax]
  · simp [UTFMax]
  · simp [UTFMax]
  · simp [UTFMax]
  · have hl : (b :: s1 :: s2 :: s3 :: s4 :: r).length > UTFMax := by simp [UTFMax]
    rw [if_pos hl]
    have ht : List.take UTFMax (b :: s1 :: s2 :: s3 :: s4 :: r) = [b, s1, s2, s3] := rfl
    rw [ht]
    by_cases hb : b < 0x80
    · have hf : first b = 0xF0 := by simp [first, hb]
      simp [DecodeRuneInString, hf]
    · have hsz : first b ≥ 0xF0 ∨ first b % 8 ≤ 4 := by
        rcases first_cases b (by omega) with h | ⟨h, -⟩ | ⟨h, -⟩ | ⟨h, -⟩ | ⟨h, -⟩ | ⟨h, -⟩
          | ⟨h, -⟩ | ⟨h, -⟩ <;> rw [h] <;> simp
      rcases hsz with hsz | hsz
      · simp [DecodeRuneInString, hsz]
      · have h1 : ¬ (4 < first b % 8) := by omega
        have h2 : ¬ (r.length + 1 + 1 + 1 + 1 + 1 < first b % 8) := by omega
        simp [DecodeRuneInString, h1, h2]

/-- Decoding the encoding of a Unicode scalar value above ASCII gives it back. -/
theorem decode_encode (c : Nat) (t : Str) (h80 : 0x80 ≤ c) (hmax : c ≤ 0x10FFFF)
    (hsur : ¬ (0xD800 ≤ c ∧ c ≤ 0xDFFF)) :
    DecodeRuneInString (EncodeRune c ++ t) = (c, (EncodeRune c).length)
      ∧ 2 ≤ (EncodeRune c).length
      ∧ ∃ b r, EncodeRune c = b :: r ∧ 0x80 ≤ b := by
  by_cases h2 : c ≤ 0x7FF
  · have he : EncodeRune c = [0xC0 + c / 64, 0x80 + c % 64] := by
      unfold EncodeRune
      rw [if_neg (by omega), if_pos h2]
    have hf := first_two (0xC0 + c / 64) (by omega) (by omega)
    have hs : ¬ (0x80 + c % 64 < 0x80) := by omega
    have hs' : ¬ (0xBF < 0x80 + c % 64) := by omega
    rw [he]
    refine ⟨?_, by simp, 0xC0 + c / 64, _, rfl, by omega⟩
    have hl : ¬ (t.length + 1 + 1 < 2) := by omega
    simp [DecodeRuneInString, hf, acceptRanges, hs, hs', hl]
    omega
  by_cases h3 : c ≤ 0xFFFF
  · have he : EncodeRune c = [0xE0 + c / 4096, 0x80 + c / 64 % 64, 0x80 + c % 64] := by
      unfold EncodeRune
      rw [if_neg (by omega), if_neg h2, if_neg (by omega), if_pos h3]
    rw [he]
    refine ⟨?_, by simp, 0xE0 + c / 4096, _, rfl, by omega⟩
    have hs2 : ¬ (0x80 + c % 64 < 0x80) := by omega
    have hs2' : ¬ (0xBF < 0x80 + c % 64) := by omega
    have hl : ¬ (t.length + 1 + 1 + 1 < 3) := by omega
    by_cases hE0 : c / 4096 = 0
    · have hf : first (0xE0 + c / 4096) = 0x13 := by rw [hE0]; decide
      have hs : ¬ (0x80 + c / 64 % 64 < 0xA0) := by omega
      have hs' : ¬ (0xBF < 0x80 + c / 64 % 64) := by omega
      simp [DecodeRuneInString, hf, acceptRanges, hs, hs', hs2, hs2', hl]
      omega
    by_cases hED : c / 4096 = 13
    · have hf : first (0xE0 + c / 4096) = 0x23 := by rw [hED]; decide
      have hs : ¬ (0x80 + c / 64 % 64 < 0x80) := by omega
      have hs' : ¬ (0x9F < 0x80 + c / 64 % 64) := by omega
      simp [DecodeRuneInString, hf, acceptRanges, hs, hs', hs2, hs2', hl]
      omega
    · have hf := first_three (0xE0 + c / 4096) (by omega) (by omega) (by omega)
      have hs : ¬ (0x80 + c / 64 % 64 < 0x80) := by omega
      have hs' : ¬ (0xBF < 0x80 + c / 64 % 64) := by omega
      simp [DecodeRuneInString, hf, acceptRanges, hs, hs', hs2, hs2', hl]
      omega
  · have he : EncodeRune c = [0xF0 + c / 262144, 0x80 + c / 4096 % 64, 0x80 + c / 64 % 64,
        0x80 + c % 64] := by
      unfold EncodeRune
      rw [if_neg (by omega), if_neg h2, if_neg (by omega), if_neg h3]
    rw [he]
    refine ⟨?_, by simp, 0xF0 + c / 262144, _, rfl, by omega⟩
    have hs2 : ¬ (0x80 + c / 64 % 64 < 0x80) := by omega
    have hs2' : ¬ (0xBF < 0x80 + c / 64 % 64) := by omega
    have hs3 : ¬ (0x80 + c % 64 < 0x80) := by omega
    have hs3' : ¬ (0xBF < 0x80 + c % 64) := by omega
    have hl : ¬ (t.length + 1 + 1 + 1 + 1 < 4) := by omega
    by_cases hF0 : c / 262144 = 0
    · have hf : first (0xF0 + c / 262144) = 0x34 := by rw [hF0]; decide
      have hs : ¬ (0x80 + c / 4096 % 64 < 0x90) := by omega
      have hs' : ¬ (0xBF < 0x80 + c / 4096 % 64) := by omega
      simp [DecodeRuneInString, hf, acceptRanges, hs, hs', hs2, hs2', hs3, hs3', hl]
      omega
    by_cases hF4 : c / 262144 = 4
    · have hf : first (0xF0 + c / 262144) = 0x44 := by rw [hF4]; decide
      have hs : ¬ (0x80 + c / 4096 % 64 < 0x80) := by omega
      have hs' : ¬ (0x8F < 0x80 + c / 4096 % 64) := by omega
      simp [DecodeRuneInString, hf, acceptRanges, hs, hs', hs2, hs2', hs3, hs3', hl]
      omega
    · have hf := first_four (0xF0 + c / 262144) (by omega) (by omega)
      have hs : ¬ (0x80 + c / 4096 % 64 < 0x80) := by omega
      have hs' : ¬ (0xBF < 0x80 + c / 4096 % 64) := by omega
      simp [DecodeRuneInString, hf, acceptRanges, hs, hs', hs2, hs2', hs3, hs3', hl]
      omega

/-- The validity loop does not depend on its fuel once the fuel covers the
string. -/
theorem validLoop_fuel :
    ∀ (fuel : Nat) (m : Str), m.length ≤ fuel → validLoop fuel m = ValidString m := by
  intro fuel
  induction fuel using Nat.strong_induction_on with
  | _ fuel ih =>
    intro m hlen
    rcases m with _ | ⟨b, t⟩
    · cases fuel <;> simp [validLoop, ValidString]
    · obtain ⟨k, rfl⟩ : ∃ k, fuel = k + 1 := ⟨fuel - 1, by simp at hlen; omega⟩
      have hk : t.length ≤ k := by simpa using hlen
      have hd := length_drop_decode b t
      unfold ValidString
      simp only [List.length_cons, validLoop]
      rw [ih k (by omega) t hk, ih k (by omega) _ (by omega)]
      have h1 := ih t.length (by omega) t (le_refl _)
      have h2 := ih t.length (by omega) _ hd
      rw [h1, h2]

/-- The empty string is valid. -/
theorem validLoop_nil (fuel : Nat) : validLoop fuel [] = true := by
  cases fuel <;> simp [validLoop]

/-- The UTF-8 encoding of a sequence of Unicode scalar values is valid. -/
theorem validLoop_encode (cs : List Char) :
    ∀ fuel, (cs.flatMap (fun c => EncodeRune c.toNat)).length ≤ fuel →
      validLoop fuel (cs.flatMap (fun c => EncodeRune c.toNat)) = true := by
  induction cs with
  | nil =>
    intro fuel _
    exact validLoop_nil fuel
  | cons c cs ih =>
    intro fuel hlen
    simp only [List.flatMap_cons, List.length_append] at hlen ⊢
    have hvalid : c.toNat < 0xD800 ∨ (0xDFFF < c.toNat ∧ c.toNat < 0x110000) := c.valid
    by_cases hc : c.toNat < 0x80
    · have he : EncodeRune c.toNat = [c.toNat] := by
        unfold EncodeRune
        rw [if_pos (by omega)]
      rw [he] at hlen ⊢
      simp only [List.length_singleton] at hlen
      obtain ⟨f, rfl⟩ : ∃ f, fuel = f + 1 := ⟨fuel - 1, by omega⟩
      have hrec := ih f (by omega)
      simp only [List.singleton_append, validLoop, RuneSelf, hc, if_true]
      exact hrec
    · obtain ⟨hd, hl2, b, r, he, hb⟩ := decode_encode c.toNat
        (cs.flatMap (fun c => EncodeRune c.toNat)) (by omega) (by omega) (by omega)
      obtain ⟨f, rfl⟩ : ∃ f, fuel = f + 1 := ⟨fuel - 1, by omega⟩
      have hrec := ih f (by omega)
      have hdrop : List.drop (EncodeRune c.toNat).length
          (EncodeRune c.toNat ++ cs.flatMap (fun c => EncodeRune c.toNat))
          = cs.flatMap (fun c => EncodeRune c.toNat) := List.drop_left _ _
      have hb' : ¬ b < RuneSelf := by simp only [RuneSelf]; omega
      have hne : (EncodeRune c.toNat).length ≠ 1 := by omega
      rw [he] at hd hdrop
      rw [he] at hne
      rw [he]
      simp only [List.cons_append] at hd hdrop ⊢
      rw [validLoop]
      simp only [hb', if_false, hd, hne, hdrop]
      exact hrec

/-- Every Unicode text, encoded as UTF-8, is a valid string. -/
theorem ValidString_str (s : String) : ValidString (str s) = true :=
  validLoop_encode s.toList _ (le_refl _)

/-! ## Writing and reading JSON strings -/

/-- One step of the encoder at a non-ASCII byte. -/
theorem appendStringLoop_nonascii (e : Bool) (fuel b : Nat) (t : Str) (hb : ¬ b < RuneSelf) :
    appendStringLoop e (fuel + 1) (b :: t) =
      if (DecodeRuneInString (b :: t)).1 = RuneError ∧ (DecodeRuneInString (b :: t)).2 = 1 then
        str "\\ufffd" ++ appendStringLoop e fuel t
      else if (DecodeRuneInString (b :: t)).1 = 0x2028
          ∨ (DecodeRuneInString (b :: t)).1 = 0x2029 then
        str "\\u202" ++ [hex ((DecodeRuneInString (b :: t)).1 % 16)]
          ++ appendStringLoop e fuel ((b :: t).drop (DecodeRuneInString (b :: t)).2)
      else
        (b :: t).take (DecodeRuneInString (b :: t)).2
          ++ appendStringLoop e fuel ((b :: t).drop (DecodeRuneInString (b :: t)).2) := by
  rw [appendStringLoop]
  simp only [hb, if_false, decode_take]

/-- One step of the encoder at an ASCII byte. -/
theorem appendStringLoop_ascii (fuel b : Nat) (t : Str) (hb : b < RuneSelf) :
    appendStringLoop false (fuel + 1) (b :: t) =
      if safeSet b = true then b :: appendStringLoop false fuel t
      else appendEscape b ++ appendStringLoop false fuel t := by
  rw [appendStringLoop]
  simp only [hb, if_true]
  cases hs : safeSet b <;> simp [htmlSafeSet, hs]

/-- The encoder loop does not depend on its fuel once the fuel covers the
string: the fuel `src.length` of `appendString` is enough. -/
theorem appendStringLoop_fuel (e : Bool) :
    ∀ (fuel : Nat) (m : Str), m.length ≤ fuel →
      appendStringLoop e fuel m = appendStringLoop e m.length m := by
  intro fuel
  induction fuel using Nat.strong_induction_on with
  | _ fuel ih =>
    intro m hlen
    rcases m with _ | ⟨b, t⟩
    · cases fuel <;> simp [appendStringLoop]
    · obtain ⟨k, rfl⟩ : ∃ k, fuel = k + 1 := ⟨fuel - 1, by simp at hlen; omega⟩
      have hk : t.length ≤ k := by simpa using hlen
      have hd := length_drop_decode b t
      by_cases hb : b < RuneSelf
      · simp only [List.length_cons, appendStringLoop, hb, if_true]
        rw [ih k (by omega) t hk]
      · rw [appendStringLoop_nonascii e k b t hb, List.length_cons,
          appendStringLoop_nonascii e t.length b t hb, ih k (by omega) t hk,
          ih k (by omega) _ (by omega), ih t.length (by omega) _ hd]

/-- The digit table and the digit reader agree. -/
theorem hexValue_hex : ∀ k, k < 16 → hexValue (hex k) = some k := by
  decide

/-- No hexadecimal digit is one of the three HTML characters. -/
theorem hex_not_special : ∀ k, k < 16 → hex k ≠ 0x3C ∧ hex k ≠ 0x3E ∧ hex k ≠ 0x26 := by
  decide

/-- Reading an ordinary byte. -/
theorem read_plain (n b : Nat) (r v rest : Str) (h1 : b ≠ 0x22) (h2 : b ≠ 0x5C)
    (h3 : ¬ b < 0x20) (h : readStringTail n r = some (v, rest)) :
    readStringTail (n + 1) (b :: r) = some (b :: v, rest) := by
  simp [readStringTail, h1, h2, h3, h]

/-- Reading a run of non-ASCII bytes. -/
theorem read_plain_chunk (chunk : Str) (hall : ∀ x ∈ chunk, 0x80 ≤ x) (n : Nat)
    (r v rest : Str) (h : readStringTail n r = some (v, rest)) :
    readStringTail (n + chunk.length) (chunk ++ r) = some (chunk ++ v, rest) := by
  induction chunk with
  | nil => simpa using h
  | cons x xs ih =>
    have hx : 0x80 ≤ x := hall x (List.mem_cons_self _ _)
    have := ih (fun y hy => hall y (List.mem_cons_of_mem _ hy))
    simp only [List.length_cons, List.cons_append, ← Nat.add_assoc]
    exact read_plain _ x _ _ _ (by omega) (by omega) (by omega) this

/-- An escape is never empty. -/
theorem appendEscape_length (b : Nat) : 1 ≤ (appendEscape b).length := by
  unfold appendEscape
  split_ifs <;> simp [str, EncodeRune]

/-- Reading the escape the encoder writes for an unsafe ASCII byte gives the
byte back. -/
theorem read_escape (n b : Nat) (r v rest : Str) (hb : b < 0x80) (hu : safeSet b = false)
    (h : readStringTail n r = some (v, rest)) :
    readStringTail (n + 1) (appendEscape b ++ r) = some (b :: v, rest) := by
  have hlit : str "\\u00" = [0x5C, 0x75, 0x30, 0x30] := by decide
  have hcases : b = 0x22 ∨ b = 0x5C ∨ b < 0x20 := by
    simp [safeSet] at hu
    omega
  by_cases h22 : b = 0x22
  · subst h22
    simp [appendEscape, readStringTail, simpleEscape, h]
  by_cases h5c : b = 0x5C
  · subst h5c
    simp [appendEscape, readStringTail, simpleEscape, h]
  have hlt : b < 0x20 := by omega
  by_cases h8 : b = 0x08
  · subst h8
    have he : appendEscape 8 = [0x5C, 0x62] := by decide
    rw [he]
    simp [readStringTail, simpleEscape, h]
  by_cases hc : b = 0x0C
  · subst hc
    have he : appendEscape 12 = [0x5C, 0x66] := by decide
    rw [he]
    simp [readStringTail, simpleEscape, h]
  by_cases ha : b = 0x0A
  · subst ha
    have he : appendEscape 10 = [0x5C, 0x6E] := by decide
    rw [he]
    simp [readStringTail, simpleEscape, h]
  by_cases hd : b = 0x0D
  · subst hd
    have he : appendEscape 13 = [0x5C, 0x72] := by decide
    rw [he]
    simp [readStringTail, simpleEscape, h]
  by_cases h9 : b = 0x09
  · subst h9
    have he : appendEscape 9 = [0x5C, 0x74] := by decide
    rw [he]
    simp [readStringTail, simpleEscape, h]
  have he : appendEscape b = [0x5C, 0x75, 0x30, 0x30, hex (b / 16), hex (b % 16)] := by
    unfold appendEscape
    rw [if_neg (by omega), if_neg h8, if_neg hc, if_neg ha, if_neg hd, if_neg h9, hlit]
    rfl
  have hv1 := hexValue_hex (b / 16) (by omega)
  have hv2 := hexValue_hex (b % 16) (by omega)
  have hv0 : hexValue 0x30 = some 0 := by decide
  have hval : b / 16 * 16 + b % 16 = b := by omega
  have hnot : ¬ (0xD800 ≤ b ∧ b ≤ 0xDBFF) := by omega
  have henc : EncodeRune b = [b] := by simp [EncodeRune]; omega
  rw [he]
  simp only [List.cons_append, List.nil_append, readStringTail]
  simp [readUnicodeEscape, readHex4, hv0, hv1, hv2, hval, hnot, henc, h]

/-- Reading the escape the encoder writes for U+2028 and U+2029. -/
theorem read_u202 (k : Nat) (hk : k = 8 ∨ k = 9) (n : Nat) (r v rest : Str)
    (h : readStringTail n r = some (v, rest)) :
    readStringTail (n + 1) (str "\\u202" ++ [hex k] ++ r)
      = some (0xE2 :: 0x80 :: (0xA0 + k) :: v, rest) := by
  rcases hk with rfl | rfl
  · have lit : str "\\u202" ++ [hex 8] = [0x5C, 0x75, 0x32, 0x30, 0x32, 0x38] := by decide
    rw [lit]
    simp [readStringTail, readUnicodeEscape, readHex4, hexValue, EncodeRune, h]
  · have lit : str "\\u202" ++ [hex 9] = [0x5C, 0x75, 0x32, 0x30, 0x32, 0x39] := by decide
    rw [lit]
    simp [readStringTail, readUnicodeEscape, readHex4, hexValue, EncodeRune, h]

/-- Reading back what the encoder loop wrote for valid UTF-8 returns the bytes
that went in. -/
theorem read_appendStringLoop : ∀ (ef : Nat) (m : Str), m.length ≤ ef → validLoop ef m = true →
    ∀ (tail : Str) (n : Nat), (appendStringLoop false ef m).length + 1 ≤ n →
      readStringTail n (appendStringLoop false ef m ++ 0x22 :: tail) = some (m, tail) := by
  intro ef
  induction ef with
  | zero =>
    intro m hlen _ tail n hn
    have hm : m = [] := List.length_eq_zero.mp (Nat.le_zero.mp hlen)
    subst hm
    obtain ⟨n', rfl⟩ : ∃ n', n = n' + 1 := ⟨n - 1, by omega⟩
    simp [appendStringLoop, readStringTail]
  | succ ef ih =>
    intro m hlen hvalid tail n hn
    rcases m with _ | ⟨b, t⟩
    · obtain ⟨n', rfl⟩ : ∃ n', n = n' + 1 := ⟨n - 1, by omega⟩
      simp [appendStringLoop, readStringTail]
    · have hlt : t.length ≤ ef := by simpa using hlen
      by_cases hb : b < RuneSelf
      · have hv : validLoop ef t = true := by simpa [validLoop, hb] using hvalid
        rw [appendStringLoop_ascii ef b t hb] at hn ⊢
        by_cases hs : safeSet b = true
        · rw [if_pos hs] at hn ⊢
          obtain ⟨n', rfl⟩ : ∃ n', n = n' + 1 := ⟨n - 1, by omega⟩
          have hrec := ih t hlt hv tail n' (by simpa using hn)
          have hs' := hs
          simp only [safeSet, Bool.and_eq_true, decide_eq_true_eq, bne_iff_ne, ne_eq] at hs'
          exact read_plain n' b _ _ _ hs'.1.2 hs'.2 (by omega) hrec
        · rw [if_neg hs] at hn ⊢
          obtain ⟨n', rfl⟩ : ∃ n', n = n' + 1 := ⟨n - 1, by omega⟩
          have hl := appendEscape_length b
          have hrec := ih t hlt hv tail n' (by
            simp only [List.length_append] at hn
            omega)
          rw [List.append_assoc]
          exact read_escape n' b _ _ _ hb (by simpa using hs) hrec
      · have hsz : (DecodeRuneInString (b :: t)).2 ≠ 1
            ∧ validLoop ef ((b :: t).drop (DecodeRuneInString (b :: t)).2) = true := by
          simp only [validLoop, hb, if_false] at hvalid
          by_cases h1 : (DecodeRuneInString (b :: t)).2 = 1
          · simp [h1] at hvalid
          · exact ⟨h1, by simpa [h1] using hvalid⟩
        rw [appendStringLoop_nonascii false ef b t hb] at hn ⊢
        have hne : ¬ ((DecodeRuneInString (b :: t)).1 = RuneError
            ∧ (DecodeRuneInString (b :: t)).2 = 1) := fun h => hsz.1 h.2
        rw [if_neg hne] at hn ⊢
        simp only [RuneSelf, not_lt] at hb
        rcases decode_cases b t (by simp only [RuneSelf]; omega) with
          h | ⟨s1, r, rfl, h1, h2, hd⟩ | ⟨s1, s2, r, rfl, hb1, hb2, h1, h2, h3, h4, hd⟩
          | ⟨s1, s2, s3, r, rfl, h1, h2, h3, hc, hd⟩
        · exact absurd h.1 hsz.1
        · -- two bytes
          have hlr : r.length ≤ ef := by simp at hlt; omega
          have hvr : validLoop ef r = true := by simpa [hd] using hsz.2
          have hnot : ¬ (b % 32 * 64 + s1 % 64 = 0x2028 ∨ b % 32 * 64 + s1 % 64 = 0x2029) := by
            omega
          simp only [hd, hnot, if_false, List.take, List.drop] at hn ⊢
          obtain ⟨n', rfl⟩ : ∃ n', n = n' + 2 := ⟨n - 2, by simp at hn; omega⟩
          have hrec := ih r hlr hvr tail n' (by simp at hn; omega)
          exact read_plain_chunk [b, s1] (by simp; omega) n' _ _ _ hrec
        · -- three bytes
          have hlr : r.length ≤ ef := by simp at hlt; omega
          have hvr : validLoop ef r = true := by simpa [hd] using hsz.2
          by_cases hsep : b % 16 * 4096 + s1 % 64 * 64 + s2 % 64 = 0x2028
              ∨ b % 16 * 4096 + s1 % 64 * 64 + s2 % 64 = 0x2029
          · simp only [hd, hsep, if_true, List.drop] at hn ⊢
            obtain ⟨n', rfl⟩ : ∃ n', n = n' + 1 := ⟨n - 1, by omega⟩
            have hrec := ih r hlr hvr tail n' (by simp at hn; omega)
            have hk : (b % 16 * 4096 + s1 % 64 * 64 + s2 % 64) % 16 = 8
                ∨ (b % 16 * 4096 + s1 % 64 * 64 + s2 % 64) % 16 = 9 := by omega
            have hbytes : b = 0xE2 ∧ s1 = 0x80
                ∧ s2 = 0xA0 + (b % 16 * 4096 + s1 % 64 * 64 + s2 % 64) % 16 := by omega
            rw [List.append_assoc, read_u202 _ hk n' _ _ _ hrec]
            obtain ⟨e1, e2, e3⟩ := hbytes
            rw [← e3, ← e2, ← e1]
          · simp only [hd, hsep, if_false, List.take, List.drop] at hn ⊢
            obtain ⟨n', rfl⟩ : ∃ n', n = n' + 3 := ⟨n - 3, by simp at hn; omega⟩
            have hrec := ih r hlr hvr tail n' (by simp at hn; omega)
            exact read_plain_chunk [b, s1, s2] (by simp; omega) n' _ _ _ hrec
        · -- four bytes
          have hlr : r.length ≤ ef := by simp at hlt; omega
          have hvr : validLoop ef r = true := by simpa [hd] using hsz.2
          have hnot : ¬ ((DecodeRuneInString (b :: s1 :: s2 :: s3 :: r)).1 = 0x2028
              ∨ (DecodeRuneInString (b :: s1 :: s2 :: s3 :: r)).1 = 0x2029) := by omega
          simp only [hd, hnot, if_false, List.take, List.drop] at hn ⊢
          obtain ⟨n', rfl⟩ : ∃ n', n = n' + 4 := ⟨n - 4, by simp at hn; omega⟩
          have hrec := ih r hlr hvr tail n' (by simp at hn; omega)
          exact read_plain_chunk [b, s1, s2, s3] (by simp; omega) n' _ _ _ hrec

/-- A quoted string starts with the quote. -/
theorem appendString_eq_cons (s : Str) (e : Bool) :
    appendString s e = 0x22 :: (appendStringLoop e s.length s ++ [0x22]) := by
  simp [appendString]

/-- Reading a string the encoder wrote from valid UTF-8. -/
theorem readString_appendString (m tail : Str) (hv : ValidString m = true) :
    readString (appendString m false ++ tail) = some (m, tail) := by
  rw [appendString_eq_cons]
  simp only [List.cons_append, readString, if_true, List.append_assoc]
  exact read_appendStringLoop m.length m (le_refl _) hv tail _ (by simp)

/-- A quoted string does not start with whitespace. -/
theorem skipSpace_appendString (s tail : Str) (e : Bool) :
    skipSpace (appendString s e ++ tail) = appendString s e ++ tail := by
  rw [appendString_eq_cons]
  simp [skipSpace, isJSONSpace]

/-- Nothing is skipped in front of a byte that is not whitespace. -/
theorem skipSpace_cons_of_not_space (b : Nat) (t : Str) (h : isJSONSpace b = false) :
    skipSpace (b :: t) = b :: t := by
  simp [skipSpace, h]

/-- Reading the single member the encoder wrote. -/
theorem readMembers_text (m : Str) (hv : ValidString m = true) (k : Nat) :
    readMembers (k + 1) (appendString (str "text") false
      ++ (0x3A :: (appendString m false ++ [0x7D, 0x0A]))) = some ([(str "text", m)], [0x0A]) := by
  have hk : ValidString (str "text") = true := by decide
  rw [readMembers, readString_appendString _ _ hk]
  simp only []
  rw [skipSpace_cons_of_not_space 0x3A _ (by decide)]
  simp only [if_true]
  rw [skipSpace_appendString, readString_appendString _ _ hv]
  simp only []
  rw [skipSpace_cons_of_not_space 0x7D _ (by decide)]
  simp only [if_true]

/-- Parsing the request body built from valid UTF-8 text. -/
theorem parseObject_Encode (m : Str) (hv : ValidString m = true) :
    parseObject (Encode false m) = some [(str "text", m)] := by
  have e1 : str "\x7b" = [0x7B] := by decide
  have e2 : str ":" = [0x3A] := by decide
  have e3 : str "\x7d" = [0x7D] := by decide
  have e4 : str "\n" = [0x0A] := by decide
  have hE : Encode false m = 0x7B :: (appendString (str "text") false
      ++ (0x3A :: (appendString m false ++ [0x7D, 0x0A]))) := by
    simp only [Encode, e1, e2, e3, e4, List.append_assoc, List.cons_append, List.nil_append]
  rw [hE]
  unfold parseObject
  rw [skipSpace_cons_of_not_space 0x7B _ (by decide)]
  simp only [if_true]
  rw [skipSpace_appendString]
  generalize hX : (0x3A :: (appendString m false ++ [0x7D, 0x0A]) : Str) = X
  rw [appendString_eq_cons]
  simp only [List.cons_append, List.length_cons]
  have h7 : ¬ (0x22 = 0x7D) := by decide
  rw [if_neg h7]
  have := readMembers_text m hv
    ((appendStringLoop false (str "text").length (str "text") ++ [34] ++ X).length + 1)
  rw [appendString_eq_cons, hX] at this
  simp only [List.cons_append] at this
  rw [this]
  have hs : skipSpace [0x0A] = [] := by decide
  simp only [hs, if_true]

/-- No escape contains one of the three HTML characters. -/
theorem count_appendEscape (c b : Nat) (hc : c = 0x3C ∨ c = 0x3E ∨ c = 0x26) (hb : b < 0x80) :
    (appendEscape b).count c = 0 := by
  have hlit : str "\\u00" = [0x5C, 0x75, 0x30, 0x30] := by decide
  have h1 := hex_not_special (b / 16) (by omega)
  have h2 := hex_not_special (b % 16) (by omega)
  unfold appendEscape
  split_ifs with g1 g2 g3 g4 g5 g6
  · rcases g1 with rfl | rfl <;> rcases hc with rfl | rfl | rfl <;> decide
  · rcases hc with rfl | rfl | rfl <;> decide
  · rcases hc with rfl | rfl | rfl <;> decide
  · rcases hc with rfl | rfl | rfl <;> decide
  · rcases hc with rfl | rfl | rfl <;> decide
  · rcases hc with rfl | rfl | rfl <;> decide
  · rw [hlit]
    rcases hc with rfl | rfl | rfl <;>
      simp [List.count_cons, h1.1, h1.2.1, h1.2.2, h2.1, h2.2.1, h2.2.2]

/-- The encoder loop neither adds nor removes a `<`, `>` or `&`. -/
theorem count_appendStringLoop (c : Nat) (hc : c = 0x3C ∨ c = 0x3E ∨ c = 0x26) :
    ∀ (ef : Nat) (m : Str), m.length ≤ ef →
      (appendStringLoop false ef m).count c = m.count c := by
  have hc80 : c < 0x80 := by omega
  have hsafe : safeSet c = true := by rcases hc with rfl | rfl | rfl <;> decide
  have hfffd : (str "\\ufffd").count c = 0 := by rcases hc with rfl | rfl | rfl <;> decide
  have h2028 : ∀ k, k = 8 ∨ k = 9 → (str "\\u202" ++ [hex k]).count c = 0 := by
    intro k hk
    rcases hk with rfl | rfl <;> rcases hc with rfl | rfl | rfl <;> decide
  intro ef
  induction ef with
  | zero =>
    intro m hlen
    have hm : m = [] := List.length_eq_zero.mp (Nat.le_zero.mp hlen)
    subst hm
    simp [appendStringLoop]
  | succ ef ih =>
    intro m hlen
    rcases m with _ | ⟨b, t⟩
    · simp [appendStringLoop]
    · have hlt : t.length ≤ ef := by simpa using hlen
      by_cases hb : b < RuneSelf
      · rw [appendStringLoop_ascii ef b t hb]
        by_cases hs : safeSet b = true
        · rw [if_pos hs, List.count_cons, List.count_cons, ih t hlt]
        · rw [if_neg hs, List.count_append, count_appendEscape c b hc hb, ih t hlt,
            List.count_cons]
          have hne : b ≠ c := by
            rintro rfl
            exact hs hsafe
          simp [hne]
      · rw [appendStringLoop_nonascii false ef b t hb]
        have hbc : b ≠ c := by
          simp only [RuneSelf, not_lt] at hb
          omega
        rcases decode_cases b t hb with
          h | ⟨s1, r, rfl, h1, h2, hd⟩ | ⟨s1, s2, r, rfl, hb1, hb2, h1, h2, h3, h4, hd⟩
          | ⟨s1, s2, s3, r, rfl, h1, h2, h3, hcp, hd⟩
        · rw [if_pos ⟨h.2, h.1⟩, List.count_append, hfffd, ih t hlt, List.count_cons]
          simp [hbc]
        · have hlr : r.length ≤ ef := by simp at hlt; omega
          have hne : ¬ ((b % 32 * 64 + s1 % 64 = RuneError) ∧ (2 = 1)) := by simp
          have hnot : ¬ (b % 32 * 64 + s1 % 64 = 0x2028 ∨ b % 32 * 64 + s1 % 64 = 0x2029) := by
            omega
          simp only [hd, hne, hnot, if_false, List.take, List.drop]
          have hs1 : s1 ≠ c := by omega
          simp [List.count_cons, ih r hlr, hbc, hs1]
        · have hlr : r.length ≤ ef := by simp at hlt; omega
          have hne : ¬ ((b % 16 * 4096 + s1 % 64 * 64 + s2 % 64 = RuneError) ∧ (3 = 1)) := by
            simp
          have hs1 : s1 ≠ c := by omega
          have hs2 : s2 ≠ c := by omega
          by_cases hsep : b % 16 * 4096 + s1 % 64 * 64 + s2 % 64 = 0x2028
              ∨ b % 16 * 4096 + s1 % 64 * 64 + s2 % 64 = 0x2029
          · have hk : (b % 16 * 4096 + s1 % 64 * 64 + s2 % 64) % 16 = 8
                ∨ (b % 16 * 4096 + s1 % 64 * 64 + s2 % 64) % 16 = 9 := by omega
            simp only [hd, hne, hsep, if_false, if_true, List.drop]
            rw [List.count_append, h2028 _ hk, ih r hlr]
            simp [List.count_cons, hbc, hs1, hs2]
          · simp only [hd, hne, hsep, if_false, List.take, List.drop]
            simp [List.count_cons, ih r hlr, hbc, hs1, hs2]
        · have hlr : r.length ≤ ef := by simp at hlt; omega
          have hne : ¬ ((DecodeRuneInString (b :: s1 :: s2 :: s3 :: r)).1 = RuneError
              ∧ (DecodeRuneInString (b :: s1 :: s2 :: s3 :: r)).2 = 1) := by
            rw [hd]; simp
          have hnot : ¬ ((DecodeRuneInString (b :: s1 :: s2 :: s3 :: r)).1 = 0x2028
              ∨ (DecodeRuneInString (b :: s1 :: s2 :: s3 :: r)).1 = 0x2029) := by omega
          rw [if_neg hne, if_neg hnot, hd]
          have hs1 : s1 ≠ c := by omega
          have hs2 : s2 ≠ c := by omega
          have hs3 : s3 ≠ c := by omega
          simp [List.count_cons, ih r hlr, hbc, hs1, hs2, hs3]

/-- The request body contains exactly as many `<`, `>` and `&` as the text. -/
theorem count_Encode (c : Nat) (hc : c = 0x3C ∨ c = 0x3E ∨ c = 0x26) (m : Str) :
    (Encode false m).count c = m.count c := by
  have h1 : (str "\x7b").count c = 0 := by rcases hc with rfl | rfl | rfl <;> decide
  have h2 : (appendString (str "text") false).count c = 0 := by
    rcases hc with rfl | rfl | rfl <;> decide
  have h3 : (str ":").count c = 0 := by rcases hc with rfl | rfl | rfl <;> decide
  have h4 : (str "\x7d").count c = 0 := by rcases hc with rfl | rfl | rfl <;> decide
  have h5 : (str "\n").count c = 0 := by rcases hc with rfl | rfl | rfl <;> decide
  have h6 : ([0x22] : Str).count c = 0 := by rcases hc with rfl | rfl | rfl <;> decide
  have h7 : (appendString m false).count c = m.count c := by
    unfold appendString
    rw [List.count_append, List.count_append, h6,
      count_appendStringLoop c hc m.length m (le_refl _)]
    omega
  unfold Encode
  simp only [List.count_append, h1, h2, h3, h4, h5, h7]
  omega

/-! ## The claims of the specification -/

/-- C1 (input validation). With a webhook that is non-blank and parses, the run ends
with exit status 2 if and only if (a) some service field is non-blank and one of
host.name, service.name, service.state is blank, or (b) all service fields are
blank, some host field is non-blank and host.name or host.state is blank, or
(c) all ten fields are blank. In case (c) the line written to standard error is
the message that names -host.name, -host.state, -service.name and
-service.state. A single service field forces service mode (`-service.name=s1`
alone and `-host.name=h1 -host.state=UP -service.output=x` both end with 2),
and host.state is not required in service mode. -/
theorem usage_error_iff (w : World) (f : Flags)
    (hw : empty (Getenv w (str "ROCKETCHAT_WEBHOOK_URL")) = false)
    (hu : ∃ u, w.urlParse (Getenv w (str "ROCKETCHAT_WEBHOOK_URL")) = .ok u) :
    ((main w f).exitCode = 2 ↔
      ((empty f.sName = false ∨ empty f.sDisplayName = false ∨ empty f.sActionUrl = false
          ∨ empty f.sState = false ∨ empty f.sOutput = false)
        ∧ (empty f.hName = true ∨ empty f.sName = true ∨ empty f.sState = true))
      ∨ ((empty f.sName = true ∧ empty f.sDisplayName = true ∧ empty f.sActionUrl = true
          ∧ empty f.sState = true ∧ empty f.sOutput = true)
        ∧ (empty f.hName = false ∨ empty f.hDisplayName = false ∨ empty f.hActionUrl = false
          ∨ empty f.hState = false ∨ empty f.hOutput = false)
        ∧ (empty f.hName = true ∨ empty f.hState = true))
      ∨ ((empty f.sName = true ∧ empty f.sDisplayName = true ∧ empty f.sActionUrl = true
          ∧ empty f.sState = true ∧ empty f.sOutput = true)
        ∧ (empty f.hName = true ∧ empty f.hDisplayName = true ∧ empty f.hActionUrl = true
          ∧ empty f.hState = true ∧ empty f.hOutput = true)))
    ∧ (((empty f.sName = true ∧ empty f.sDisplayName = true ∧ empty f.sActionUrl = true
          ∧ empty f.sState = true ∧ empty f.sOutput = true)
        ∧ (empty f.hName = true ∧ empty f.hDisplayName = true ∧ empty f.hActionUrl = true
          ∧ empty f.hState = true ∧ empty f.hOutput = true)) →
        (main w f).stderr = str "Missing either -host.name and -host.state or -host.name, -service.name and -service.state" ++ str "\n"
        ∧ occursIn (str "-host.name") (main w f).stderr = true
        ∧ occursIn (str "-host.state") (main w f).stderr = true
        ∧ occursIn (str "-service.name") (main w f).stderr = true
        ∧ occursIn (str "-service.state") (main w f).stderr = true)
    ∧ (main w { noFlags with sName := str "s1" }).exitCode = 2
    ∧ (main w { noFlags with hName := str "h1", hState := str "UP", sOutput := str "x" }).exitCode = 2
    ∧ (main w { noFlags with hName := str "h1", sName := str "s1", sState := str "OK" }).exitCode ≠ 2 := by
  obtain ⟨u, hu⟩ := hu
  have key : ∀ g : Flags, (main w g).exitCode = 2 ↔ ∃ msg, selectMode g = .error msg := by
    intro g
    rw [exit_two_iff, hw, hu]
    simp
  refine ⟨?_, ?_, ?_, ?_, ?_⟩
  · rw [key, selectMode_error_iff]
  · intro h
    have hm := selectMode_none f h.1 h.2
    have hs : (main w f).stderr = str "Missing either -host.name and -host.state or -host.name, -service.name and -service.state" ++ str "\n" := by
      simp only [main, hw, hm, complain, List.nil_append, Bool.false_eq_true, if_false]
    rw [hs]
    exact ⟨rfl, by decide, by decide, by decide, by decide⟩
  · rw [key, selectMode_error_iff]
    decide
  · rw [key, selectMode_error_iff]
    decide
  · rw [Ne, key, selectMode_error_iff]
    decide

/-- Witness for C1: the run without flags in a world where everything else works. -/
theorem usage_error_iff_witness :
    (main (okWorld 200) noFlags).exitCode = 2
    ∧ (main (okWorld 200) noFlags).stderr = str "Missing either -host.name and -host.state or -host.name, -service.name and -service.state" ++ str "\n"
    ∧ (main (okWorld 200) { noFlags with sName := str "s1" }).exitCode = 2 :=
  have h := usage_error_iff (okWorld 200) noFlags (by decide) ⟨_, rfl⟩
  ⟨h.1.2 (Or.inr (Or.inr (by decide))), (h.2.1 (by decide)).1, h.2.2.1⟩

/-- C2 (service-mode message shape). For every run that passes validation with at least
one service field non-blank, the formatted text is the service template: the
icon line with the local host name (or `(unknown)` when the lookup failed), the
service and host rendered by `linkOrItalic` with their defaulted display
names, the lower-cased service state with its punctuation mark, the time
stamp, the `Host:` and `Service:` lines and the service output, inserted
verbatim, in a code block. Icon and mark come from the state table applied to
service.state. -/
theorem service_message_shape (w : World) (f : Flags)
    (hv : (main w f).exitCode ≠ 2)
    (hs : empty f.sName = false ∨ empty f.sDisplayName = false ∨ empty f.sActionUrl = false
      ∨ empty f.sState = false ∨ empty f.sOutput = false) :
    (main w f).message = some (
      str ":" ++ (iconAndMark f.sState).1 ++ str ": *Service monitoring on "
        ++ (match w.hostname with | .ok h => h | .error _ => str "(unknown)")
        ++ str "* :" ++ (iconAndMark f.sState).1 ++ str ":"
        ++ str "\n\n"
        ++ linkOrItalic (if empty f.sDisplayName then f.sName else f.sDisplayName) f.sActionUrl
        ++ str " on "
        ++ linkOrItalic (if empty f.hDisplayName then f.hName else f.hDisplayName) f.hActionUrl
        ++ str " is *" ++ ToLower w.lowerCase f.sState ++ str "*" ++ (iconAndMark f.sState).2
        ++ str "\n\nWhen: " ++ w.timeString (if f.icingaTimet = 0 then w.now else f.icingaTimet)
        ++ str "\nHost: " ++ f.hName ++ str "\nService: " ++ f.sName
        ++ str "\nInfo:\n\n```\n" ++ f.sOutput ++ str "\n```") :=
  service_text w f hv hs

/-- Witness for C2 (Scenario B): `-host.name=h1 -service.name=s1 -service.state=CRITICAL`
gives the icon `exclamation`, the sentence `_s1_ on _h1_ is *critical*!` and
a `Service: s1` line. -/
theorem service_message_shape_witness :
    (main (okWorld 200) scenarioB).exitCode = 0
    ∧ (main (okWorld 200) scenarioB).message = some (str ":exclamation: *Service monitoring on mon1* :exclamation:\n\n_s1_ on _h1_ is *critical*!\n\nWhen: 2023-11-14 22:13:20 +0000 UTC\nHost: h1\nService: s1\nInfo:\n\n```\n\n```") :=
  ⟨by decide, (service_message_shape (okWorld 200) scenarioB (by decide) (by decide)).trans (by decide)⟩

/-- C3 (host-mode message shape, amended). For every run that passes validation with all five
service fields blank, the formatted text is the host template: as in service
mode, but with `Host monitoring`, without the service link and ` on `,
without the `Service:` line of the service template between `Host:` and
`Info:`, and with state, icon, mark and output taken from the host. The
template itself brings no `Service:`: the text contains `Service:` if and
only if one of the texts inserted verbatim does (the local host name, the
displayed host name, a non-blank host.action_url, the lower-cased host.state,
the rendered time, host.name, host.output). -/
theorem host_message_shape (w : World) (f : Flags)
    (hv : (main w f).exitCode ≠ 2)
    (hs : empty f.sName = true ∧ empty f.sDisplayName = true ∧ empty f.sActionUrl = true
      ∧ empty f.sState = true ∧ empty f.sOutput = true) :
    (main w f).message = some (
      str ":" ++ (iconAndMark f.hState).1 ++ str ": *Host monitoring on "
        ++ (match w.hostname with | .ok h => h | .error _ => str "(unknown)")
        ++ str "* :" ++ (iconAndMark f.hState).1 ++ str ":"
        ++ str "\n\n"
        ++ linkOrItalic (if empty f.hDisplayName then f.hName else f.hDisplayName) f.hActionUrl
        ++ str " is *" ++ ToLower w.lowerCase f.hState ++ str "*" ++ (iconAndMark f.hState).2
        ++ str "\n\nWhen: " ++ w.timeString (if f.icingaTimet = 0 then w.now else f.icingaTimet)
        ++ str "\nHost: " ++ f.hName
        ++ str "\nInfo:\n\n```\n" ++ f.hOutput ++ str "\n```")
    ∧ ∀ text, (main w f).message = some text →
      (occursIn (str "Service:") text = true ↔
        (occursIn (str "Service:")
            (match w.hostname with | .ok h => h | .error _ => str "(unknown)") = true
          ∨ occursIn (str "Service:")
            (if empty f.hDisplayName then f.hName else f.hDisplayName) = true
          ∨ (empty f.hActionUrl = false ∧ occursIn (str "Service:") f.hActionUrl = true)
          ∨ occursIn (str "Service:") (ToLower w.lowerCase f.hState) = true
          ∨ occursIn (str "Service:")
            (w.timeString (if f.icingaTimet = 0 then w.now else f.icingaTimet)) = true
          ∨ occursIn (str "Service:") f.hName = true
          ∨ occursIn (str "Service:") f.hOutput = true)) := by
  refine ⟨host_text w f hv hs, ?_⟩
  intro text ht
  rw [host_text w f hv hs] at ht
  rw [← Option.some.inj ht]
  obtain ⟨h0, h1, h3⟩ := iconAndMark_no_service f.hState
  exact occursIn_host_template _ _ _ _ _ _ _ _ _ h0 h1 h3

/-- Witness for C3 (Scenario A): `-host.name=h1 -host.state=UP` gives the icon
`white_check_mark` and the sentence `_h1_ is *up*.`; the text has no
`Service:` in it. -/
theorem host_message_shape_witness :
    (main (okWorld 200) scenarioA).exitCode = 0
    ∧ (main (okWorld 200) scenarioA).message = some (str ":white_check_mark: *Host monitoring on mon1* :white_check_mark:\n\n_h1_ is *up*.\n\nWhen: 2023-11-14 22:13:20 +0000 UTC\nHost: h1\nInfo:\n\n```\n\n```")
    ∧ (∀ text, (main (okWorld 200) scenarioA).message = some text →
        occursIn (str "Service:") text = false) :=
  ⟨by decide, (host_message_shape (okWorld 200) scenarioA (by decide) (by decide)).1.trans (by decide),
   by
    intro text h
    rw [(host_message_shape (okWorld 200) scenarioA (by decide) (by decide)).1] at h
    cases h
    decide⟩

/-- Counterexample to C3 as stated: `-host.name` set to `h1`, a newline and
`Service: s1`, with `-host.state=UP` and no service flag, passes validation in
host mode (exit status 0), and the formatted text has the line `Service: s1`
between `Host: h1` and `Info:`. -/
theorem host_message_shape_counterexample :
    (main (okWorld 200) hostNameWithServiceLine).exitCode = 0
    ∧ (empty hostNameWithServiceLine.sName = true
        ∧ empty hostNameWithServiceLine.sDisplayName = true
        ∧ empty hostNameWithServiceLine.sActionUrl = true
        ∧ empty hostNameWithServiceLine.sState = true
        ∧ empty hostNameWithServiceLine.sOutput = true)
    ∧ (main (okWorld 200) hostNameWithServiceLine).message
        = some (str ":white_check_mark: *Host monitoring on mon1* :white_check_mark:\n\n_h1\nService: s1_ is *up*.\n\nWhen: 2023-11-14 22:13:20 +0000 UTC\nHost: h1\nService: s1\nInfo:\n\n```\n\n```")
    ∧ (main (okWorld 200) hostNameWithServiceLine).message.map
          (occursIn (str "Service:")) = some true
    ∧ (main (okWorld 200) hostNameWithServiceLine).message.map
          (occursIn (str "\nHost: h1\nService: s1\nInfo:")) = some true := by
  decide

/-- C4 (state table). The icon and punctuation mark are (white_check_mark, `.`) for
exactly `UP` and `OK`, (warning, `!`) for exactly `WARNING`, (exclamation, `!`)
for exactly `DOWN` and `CRITICAL`, and (question, `!`) for every other string.
The comparison is exact: `ok`, `Up` and ` OK` (which is not blank and passes
validation) get the question mark icon. The mark is `.` if and only if the
state is `UP` or `OK`. -/
theorem state_table (s : Str) :
    ((s = str "UP" ∨ s = str "OK") → iconAndMark s = (str "white_check_mark", str "."))
    ∧ (s = str "WARNING" → iconAndMark s = (str "warning", str "!"))
    ∧ ((s = str "DOWN" ∨ s = str "CRITICAL") → iconAndMark s = (str "exclamation", str "!"))
    ∧ ((s ≠ str "UP" ∧ s ≠ str "OK" ∧ s ≠ str "WARNING" ∧ s ≠ str "DOWN" ∧ s ≠ str "CRITICAL") →
        iconAndMark s = (str "question", str "!"))
    ∧ iconAndMark (str "ok") = (str "question", str "!")
    ∧ iconAndMark (str "Up") = (str "question", str "!")
    ∧ iconAndMark (str " OK") = (str "question", str "!")
    ∧ empty (str " OK") = false
    ∧ (main (okWorld 200) { scenarioA with hState := str " OK" }).exitCode = 0
    ∧ (main (okWorld 200) { scenarioA with hState := str " OK" }).message = some (str ":question: *Host monitoring on mon1* :question:\n\n_h1_ is * ok*!\n\nWhen: 2023-11-14 22:13:20 +0000 UTC\nHost: h1\nInfo:\n\n```\n\n```")
    ∧ ((iconAndMark s).2 = str "." ↔ (s = str "UP" ∨ s = str "OK")) := by
  refine ⟨?_, ?_, ?_, ?_, by decide, by decide, by decide, by decide, by decide, by decide, ?_⟩
  · rintro (h | h) <;> subst h <;> decide
  · rintro h; subst h; decide
  · rintro (h | h) <;> subst h <;> decide
  · rintro ⟨h1, h2, h3, h4, h5⟩
    simp [iconAndMark, h1, h2, h3, h4, h5]
  · unfold iconAndMark
    split_ifs with h1 h2 h3
    · simp [h1]
    · have : ¬ (str "!" = str ".") := by decide
      simp [h1, this]
    · have : ¬ (str "!" = str ".") := by decide
      simp [h1, this]
    · have : ¬ (str "!" = str ".") := by decide
      simp [h1, this]

/-- C5 (exit status after validation). For every run that does not end with the usage status 2,
a request was handed to the HTTP client, and the exit status is 0 if and only
if the host name lookup succeeded and the client returned a response with
status at most 299; otherwise it is 1. In particular a delivered message after
a failed host name lookup gives 1, and a response status of 300 or more
gives 1. -/
theorem exit_status_mapping (w : World) (f : Flags) (hv : (main w f).exitCode ≠ 2) :
    ∃ req, (main w f).request = some req
      ∧ ((main w f).exitCode = 0 ↔
          ((∃ h, w.hostname = .ok h) ∧ ∃ r, w.httpDo req = .ok r ∧ r.StatusCode ≤ 299))
      ∧ ((main w f).exitCode ≠ 0 → (main w f).exitCode = 1)
      ∧ (∀ r e, w.httpDo req = .ok r → r.StatusCode ≤ 299 → w.hostname = .error e →
          (main w f).exitCode = 1)
      ∧ (∀ r, w.httpDo req = .ok r → 300 ≤ r.StatusCode → (main w f).exitCode = 1) := by
  obtain ⟨hw, m, u, hm, hu⟩ := valid_run w f hv
  rw [main_of_valid w f m u hw hm hu]
  generalize formatMessage w f (if f.icingaTimet = 0 then w.now else f.icingaTimet)
    (lookupHostname w).1 m (if empty f.hDisplayName then f.hName else f.hDisplayName) = text
  refine ⟨webhookRequest u text, deliver_request _ _ _ _ _, ?_⟩
  have hx : (lookupHostname w).2.1 = 0 ↔ ∃ h, w.hostname = .ok h := by
    cases h : w.hostname <;> simp [lookupHostname, h]
  have hle := lookupHostname_exit_le w
  cases hd : w.httpDo (webhookRequest u text) with
  | error x =>
    rw [deliver_exitCode_error w u _ _ text x hd]
    simp
  | ok r =>
    rw [deliver_exitCode_ok w u _ _ text r hd]
    by_cases hr : r.StatusCode > 299
    · rw [if_pos hr]
      refine ⟨?_, ?_, ?_, ?_⟩
      · simp only [Except.ok.injEq, exists_eq_left', one_ne_zero, false_iff, not_and]
        intro _
        omega
      · intro _; rfl
      · intro _ _ _ _ _; rfl
      · intro _ _ _; rfl
    · rw [if_neg hr]
      refine ⟨?_, ?_, ?_, ?_⟩
      · simp only [Except.ok.injEq, exists_eq_left']
        rw [hx]
        constructor
        · intro h
          exact ⟨h, by omega⟩
        · intro h
          exact h.1
      · intro h
        omega
      · intro r2 e _ _ he
        have : ¬ ∃ h, w.hostname = .ok h := by simp [he]
        rw [← hx] at this
        omega
      · intro r2 h2 h3
        simp only [Except.ok.injEq] at h2
        subst h2
        omega

/-- Witness for C5: Scenario A answered with 200 ends with 0, answered with 400
(Scenario E) with 1, and answered with 200 on a machine without a host name
with 1. -/
theorem exit_status_mapping_witness :
    (main (okWorld 200) scenarioA).exitCode = 0
    ∧ (main (okWorld 400) scenarioA).exitCode = 1
    ∧ (main { okWorld 200 with hostname := .error (str "no name") } scenarioA).exitCode = 1
    ∧ ∃ req, (main (okWorld 200) scenarioA).request = some req
        ∧ ((main (okWorld 200) scenarioA).exitCode = 0 ↔
          ((∃ h, (okWorld 200).hostname = .ok h)
            ∧ ∃ r, (okWorld 200).httpDo req = .ok r ∧ r.StatusCode ≤ 299)) :=
  ⟨by decide, by decide, by decide,
    (exit_status_mapping (okWorld 200) scenarioA (by decide)).imp fun _ h => ⟨h.1, h.2.1⟩⟩

/-- C6 (link or italic). The rendering is `_text_` when the URL is blank (empty after
`TrimSpace`, so also when it consists of whitespace only) and
`[text](url)` otherwise, with the URL and the text inserted exactly as
supplied. -/
theorem linkOrItalic_rendering (text url : Str) :
    (empty url = true → linkOrItalic text url = str "_" ++ text ++ str "_")
    ∧ (empty url = false → linkOrItalic text url = str "[" ++ text ++ str "](" ++ url ++ str ")")
    ∧ (empty url = true ↔ TrimSpace url = [])
    ∧ empty (str "") = true ∧ empty (str " \t\n ") = true
    ∧ linkOrItalic text (str " \t\n ") = str "_" ++ text ++ str "_"
    ∧ empty (str " http://x/?a=<b>&c ") = false
    ∧ linkOrItalic text (str " http://x/?a=<b>&c ")
        = str "[" ++ text ++ str "](" ++ str " http://x/?a=<b>&c " ++ str ")" := by
  refine ⟨?_, ?_, ?_, by decide, by decide, ?_, by decide, ?_⟩
  · intro h
    simp [linkOrItalic, h, Sprintf, str, EncodeRune]
  · intro h
    simp [linkOrItalic, h, Sprintf, str, EncodeRune]
  · simp [empty]
  · have h : empty (str " \t\n ") = true := by decide
    simp only [linkOrItalic, h, if_true]
    simp [Sprintf, str, EncodeRune]
  · have h : empty (str " http://x/?a=<b>&c ") = false := by decide
    simp only [linkOrItalic, h, Bool.false_eq_true, if_false]
    simp [Sprintf, str, EncodeRune]

/-- C7 (display-name defaulting). For every run that passes validation: with a blank
host.display_name the text (in either mode) is the one the same input with
host.display_name set to host.name produces; in service mode, with a blank
service.display_name the text is the one produced with service.display_name
set to service.name; and a display name that is not blank is shown exactly as
supplied: whatever non-blank display name is put in, the text is a fixed
beginning, `linkOrItalic` of that display name, and a fixed end. -/
theorem display_name_defaulting (w : World) (f : Flags) (hv : (main w f).exitCode ≠ 2) :
    (empty f.hDisplayName = true →
      (main w { f with hDisplayName := f.hName }).exitCode ≠ 2
      ∧ (main w { f with hDisplayName := f.hName }).message = (main w f).message)
    ∧ ((empty f.sName = false ∨ empty f.sDisplayName = false ∨ empty f.sActionUrl = false
        ∨ empty f.sState = false ∨ empty f.sOutput = false) →
      empty f.sDisplayName = true →
      (main w { f with sDisplayName := f.sName }).exitCode ≠ 2
      ∧ (main w { f with sDisplayName := f.sName }).message = (main w f).message)
    ∧ (∃ before after, ∀ d, empty d = false →
        (main w { f with hDisplayName := d }).message
          = some (before ++ linkOrItalic d f.hActionUrl ++ after))
    ∧ ((empty f.sName = false ∨ empty f.sDisplayName = false ∨ empty f.sActionUrl = false
        ∨ empty f.sState = false ∨ empty f.sOutput = false) →
      ∃ before after, ∀ d, empty d = false →
        (main w { f with sDisplayName := d }).message
          = some (before ++ linkOrItalic d f.sActionUrl ++ after)) := by
  refine ⟨?_, ?_, host_display_name_verbatim w f hv, service_display_name_verbatim w f hv⟩
  · intro hd
    rw [main_hDisplayName w f hv hd]
    exact ⟨hv, rfl⟩
  · intro hs hd
    rw [main_sDisplayName w f hv hs hd]
    exact ⟨hv, rfl⟩

/-- Witness for C7: whitespace-only display names are replaced by the names, and a
display name with surrounding spaces is kept as it is. -/
theorem display_name_defaulting_witness :
    (main (okWorld 200) { scenarioB with hDisplayName := str " \t", sDisplayName := str "  " }).message
      = (main (okWorld 200) { scenarioB with hDisplayName := str "h1", sDisplayName := str "s1" }).message
    ∧ (main (okWorld 200) { scenarioA with hDisplayName := str " " }).message
      = (main (okWorld 200) { scenarioA with hDisplayName := str "h1" }).message
    ∧ (main (okWorld 200) { scenarioB with hDisplayName := str " Host 1 ", sDisplayName := str "Svc" }).message
      = some (str ":exclamation: *Service monitoring on mon1* :exclamation:\n\n_Svc_ on _ Host 1 _ is *critical*!\n\nWhen: 2023-11-14 22:13:20 +0000 UTC\nHost: h1\nService: s1\nInfo:\n\n```\n\n```") :=
  have h1 := display_name_defaulting (okWorld 200)
    { scenarioB with hDisplayName := str " \t", sDisplayName := str "  " } (by decide)
  have h2 := display_name_defaulting (okWorld 200)
    { scenarioB with hDisplayName := str "h1", sDisplayName := str "  " } (by decide)
  have h3 := display_name_defaulting (okWorld 200)
    { scenarioA with hDisplayName := str " " } (by decide)
  ⟨((h1.1 (by decide)).2.symm).trans (h2.2.1 (by decide) (by decide)).2.symm,
    (h3.1 (by decide)).2.symm, by decide⟩

/-- C8 (JSON body round trip, amended). For every text that is valid UTF-8, parsing the request
body (the encoding of the object with the single key `text`, HTML escaping
off) gives exactly one member, `text`, whose value is the text, byte for byte;
in particular this holds for the UTF-8 encoding of every Unicode string. For
every text, valid or not, the body has as many `<`, `>` and `&` as the text,
and the encoder passes each of them on unchanged. The body of the request a
valid run sends is this encoding of its formatted text. -/
theorem json_body_round_trip (m : Str) :
    (ValidString m = true → parseObject (Encode false m) = some [(str "text", m)])
    ∧ (Encode false m).count 0x3C = m.count 0x3C
    ∧ (Encode false m).count 0x3E = m.count 0x3E
    ∧ (Encode false m).count 0x26 = m.count 0x26
    ∧ (∀ c, c = 0x3C ∨ c = 0x3E ∨ c = 0x26 → ∀ ef t,
        appendStringLoop false (ef + 1) (c :: t) = c :: appendStringLoop false ef t)
    ∧ (∀ s : String, parseObject (Encode false (str s)) = some [(str "text", str s)])
    ∧ (∀ w f, (main w f).exitCode ≠ 2 → ∃ text, (main w f).message = some text
        ∧ (main w f).request.map Request.Body = some (Encode false text)) := by
  refine ⟨parseObject_Encode m, count_Encode _ (Or.inl rfl) m,
    count_Encode _ (Or.inr (Or.inl rfl)) m, count_Encode _ (Or.inr (Or.inr rfl)) m, ?_,
    fun s => parseObject_Encode _ (ValidString_str s), main_body_of_valid⟩
  intro c hc ef t
  have hb : c < RuneSelf := by simp only [RuneSelf]; omega
  have hs : safeSet c = true := by rcases hc with rfl | rfl | rfl <;> decide
  rw [appendStringLoop_ascii ef c t hb, if_pos hs]

/-- Witness for C8: a text with `<`, `>`, `&`, a quote, a newline, a two-byte
character and U+2028. -/
theorem json_body_round_trip_witness :
    ValidString (str "a<b> & \"c\"\n\u00e9\u2028") = true
    ∧ Encode false (str "a<b> & \"c\"\n\u00e9\u2028")
        = str "\x7b\"text\":\"a<b> & \\\"c\\\"\\n\u00e9\\u2028\"\x7d\n"
    ∧ parseObject (Encode false (str "a<b> & \"c\"\n\u00e9\u2028"))
        = some [(str "text", str "a<b> & \"c\"\n\u00e9\u2028")] :=
  ⟨by decide, by decide, (json_body_round_trip _).1 (by decide)⟩

/-- Counterexample to C8 as stated: with `-host.name=h1 -host.state=UP` and a
host.output that is the single byte 0xFF (not valid UTF-8), the run succeeds,
the formatted text contains the byte 0xFF, and the body parses to a text that
has U+FFFD (EF BF BD) in its place: the value read back differs from the
formatted text. -/
theorem json_body_round_trip_counterexample :
    (main (okWorld 200) { scenarioA with hOutput := [0xFF] }).exitCode = 0
    ∧ (main (okWorld 200) { scenarioA with hOutput := [0xFF] }).message
        = some (str ":white_check_mark: *Host monitoring on mon1* :white_check_mark:\n\n_h1_ is *up*.\n\nWhen: 2023-11-14 22:13:20 +0000 UTC\nHost: h1\nInfo:\n\n```\n" ++ [0xFF] ++ str "\n```")
    ∧ ((main (okWorld 200) { scenarioA with hOutput := [0xFF] }).request.bind
          fun r => parseObject r.Body)
        = some [(str "text", str ":white_check_mark: *Host monitoring on mon1* :white_check_mark:\n\n_h1_ is *up*.\n\nWhen: 2023-11-14 22:13:20 +0000 UTC\nHost: h1\nInfo:\n\n```\n" ++ [0xEF, 0xBF, 0xBD] ++ str "\n```")]
    ∧ ((main (okWorld 200) { scenarioA with hOutput := [0xFF] }).request.bind
          fun r => parseObject r.Body)
        ≠ (main (okWorld 200) { scenarioA with hOutput := [0xFF] }).message.map
            fun text => [(str "text", text)] := by
  decide

/-- C9 (missing webhook). When ROCKETCHAT_WEBHOOK_URL is unset, empty or whitespace only,
the run ends with status 2 after writing exactly the line
`$ROCKETCHAT_WEBHOOK_URL missing` to standard error, whatever the flags are
(so before any check of the flags); no text is formatted and no request is
sent. -/
theorem missing_webhook (w : World) (f : Flags)
    (h : w.environ (str "ROCKETCHAT_WEBHOOK_URL") = none
      ∨ w.environ (str "ROCKETCHAT_WEBHOOK_URL") = some []
      ∨ ∃ v, w.environ (str "ROCKETCHAT_WEBHOOK_URL") = some v ∧ TrimSpace v = []) :
    main w f = { exitCode := 2, stderr := str "$ROCKETCHAT_WEBHOOK_URL missing" ++ str "\n",
                 message := none, request := none } := by
  have he : empty (Getenv w (str "ROCKETCHAT_WEBHOOK_URL")) = true := by
    rcases h with h | h | ⟨v, h, hv⟩
    · simp only [Getenv, h]; decide
    · simp only [Getenv, h]; decide
    · simp only [Getenv, h, empty, hv]; decide
  simp only [main, he, if_true, complain, List.nil_append]

/-- Witness for C9 (Scenario D): valid flags with the variable unset, and no flags
with a whitespace-only variable. -/
theorem missing_webhook_witness :
    main { okWorld 200 with environ := fun _ => none } scenarioA
      = { exitCode := 2, stderr := str "$ROCKETCHAT_WEBHOOK_URL missing" ++ str "\n",
          message := none, request := none }
    ∧ main { okWorld 200 with environ := fun _ => some (str " \t ") } noFlags
      = { exitCode := 2, stderr := str "$ROCKETCHAT_WEBHOOK_URL missing" ++ str "\n",
          message := none, request := none } :=
  ⟨missing_webhook _ scenarioA (Or.inl rfl),
   missing_webhook _ noFlags (Or.inr (Or.inr ⟨str " \t ", rfl, by decide⟩))⟩

/-- C10 (mode isolation). For a run that passes validation in service mode, changing
host.state and host.output to anything (such that the run still passes
validation) leaves the formatted text and the request unchanged; for a run
that passes validation in host mode, replacing the service fields by other
blank values leaves the formatted text and the request unchanged. -/
theorem mode_isolation (w : World) (f : Flags) (hv : (main w f).exitCode ≠ 2) :
    ((empty f.sName = false ∨ empty f.sDisplayName = false ∨ empty f.sActionUrl = false
        ∨ empty f.sState = false ∨ empty f.sOutput = false) →
      ∀ hState hOutput : Str,
        (main w { f with hState := hState, hOutput := hOutput }).exitCode ≠ 2 →
        (main w { f with hState := hState, hOutput := hOutput }).message = (main w f).message
        ∧ (main w { f with hState := hState, hOutput := hOutput }).request = (main w f).request)
    ∧ ((empty f.sName = true ∧ empty f.sDisplayName = true ∧ empty f.sActionUrl = true
        ∧ empty f.sState = true ∧ empty f.sOutput = true) →
      ∀ sName sDisplayName sActionUrl sState sOutput : Str,
        (empty sName = true ∧ empty sDisplayName = true ∧ empty sActionUrl = true
          ∧ empty sState = true ∧ empty sOutput = true) →
        (main w { f with sName := sName, sDisplayName := sDisplayName, sActionUrl := sActionUrl, sState := sState, sOutput := sOutput }).exitCode ≠ 2 →
        (main w { f with sName := sName, sDisplayName := sDisplayName, sActionUrl := sActionUrl, sState := sState, sOutput := sOutput }).message = (main w f).message
        ∧ (main w { f with sName := sName, sDisplayName := sDisplayName, sActionUrl := sActionUrl, sState := sState, sOutput := sOutput }).request = (main w f).request) := by
  refine ⟨?_, ?_⟩
  · intro hs hState hOutput _
    rw [main_service_ignores_host_state w f hState hOutput hv hs]
    exact ⟨rfl, rfl⟩
  · intro hs a b c d e hs2 _
    have h := main_host_ignores_service_fields w f a b c d e hv hs hs2
    exact ⟨h.1, h.2.1⟩

/-- Witness for C10: Scenario B with and without a host state and output, Scenario
A with and without whitespace in the service fields. -/
theorem mode_isolation_witness :
    (main (okWorld 200) { scenarioB with hState := str "DOWN", hOutput := str "secret" }).message
      = (main (okWorld 200) scenarioB).message
    ∧ (main (okWorld 200) { scenarioA with sName := str " ", sOutput := str "\t" }).message
      = (main (okWorld 200) scenarioA).message :=
  ⟨((mode_isolation (okWorld 200) scenarioB (by decide)).1 (by decide)
      (str "DOWN") (str "secret") (by decide)).1,
   ((mode_isolation (okWorld 200) scenarioA (by decide)).2 (by decide)
      (str " ") [] [] [] (str "\t") (by decide) (by decide)).1⟩

end NotifyRocketchat
